import Mathlib

/-!
Shallow embedding of the `phosphor-gridpanel` layout core
(`src/index.ts`): the `Spec` track-description value object, the
`BoxSizer` working state, the geometry setup pass (`_setupGeometry`),
and the child layout pass (`_layoutChildren`).

JavaScript numbers are modelled as `ℚ`; the value `Infinity` (the
default `maxSize`) is modelled by `⊤` in `WithTop ℚ`.  The JS
expression `value | 0` (ToInt32) is modelled by `toInt32`: truncation
toward zero followed by wrapping into the signed 32-bit range.

The distribution algorithm `boxCalc` is imported by the repository
from the external `phosphor-boxengine` package and its source is not
part of this repository; it is modelled here from the specification's
description of the two-phase water-filling distribution (§4.2).
-/

namespace Phosphor

/-- Truncation of a rational toward zero, as in the first step of the
JavaScript ToInt32 conversion. -/
def truncQ (v : ℚ) : ℤ :=
  if 0 ≤ v then ⌊v⌋ else ⌈v⌉

/-- The JavaScript `value | 0` coercion on a (finite) number: truncate
toward zero, then wrap into the signed 32-bit range. -/
def toInt32 (v : ℚ) : ℤ :=
  let r := truncQ v % 4294967296
  if r < 2147483648 then r else r - 4294967296

/-- The JavaScript `Math.min(v, hi)` where `hi` may be `Infinity`. -/
def jsMinQ (v : ℚ) (hi : WithTop ℚ) : ℚ :=
  WithTop.untop' v (min (↑v) hi)

/-- The clamp `Math.max(lo, Math.min(v, hi))` used throughout the
layout code, with a possibly-infinite upper bound. -/
def clampQ (v lo : ℚ) (hi : WithTop ℚ) : ℚ :=
  max lo (jsMinQ v hi)

theorem jsMinQ_top (v : ℚ) : jsMinQ v ⊤ = v := by
  simp [jsMinQ]

theorem jsMinQ_coe (v m : ℚ) : jsMinQ v (↑m) = min v m := by
  simp [jsMinQ, ← WithTop.coe_min]

theorem coe_jsMinQ (v : ℚ) (hi : WithTop ℚ) :
    (↑(jsMinQ v hi) : WithTop ℚ) = min (↑v) hi := by
  cases hi with
  | top => simp [jsMinQ]
  | coe m => simp [jsMinQ, ← WithTop.coe_min]

theorem jsMinQ_le (v : ℚ) (hi : WithTop ℚ) :
    (↑(jsMinQ v hi) : WithTop ℚ) ≤ hi := by
  rw [coe_jsMinQ]; exact min_le_right _ _

theorem clampQ_le (v lo : ℚ) (hi : WithTop ℚ) (h : (↑lo : WithTop ℚ) ≤ hi) :
    (↑(clampQ v lo hi) : WithTop ℚ) ≤ hi := by
  rw [clampQ]
  rcases max_cases lo (jsMinQ v hi) with ⟨he, _⟩ | ⟨he, _⟩ <;> rw [he]
  · exact h
  · exact jsMinQ_le v hi

theorem le_clampQ (v lo : ℚ) (hi : WithTop ℚ) : lo ≤ clampQ v lo hi :=
  le_max_left _ _

/-- The `Spec` value object (`class Spec`): the stored, already-coerced
field values of a row/column specification.  Defaults follow the four
property descriptors: `sizeBasis = 0`, `minSize = 0`,
`maxSize = Infinity`, `stretch = 1`. -/
structure Spec where
  sizeBasis : ℚ := 0
  minSize : ℚ := 0
  maxSize : WithTop ℚ := ⊤
  stretch : ℤ := 1
deriving DecidableEq, Repr

/-- Setter for `Spec.sizeBasis` (`sizeBasisProperty`, no coercion). -/
def Spec.setSizeBasis (sp : Spec) (v : ℚ) : Spec :=
  { sp with sizeBasis := v }

/-- Setter for `Spec.minSize` (`minSizeProperty` with coercion
`Math.max(0, value)`). -/
def Spec.setMinSize (sp : Spec) (v : ℚ) : Spec :=
  { sp with minSize := max 0 v }

/-- Setter for `Spec.maxSize` (`maxSizeProperty` with coercion
`Math.max(0, value)`; the stored value may be `Infinity`). -/
def Spec.setMaxSize (sp : Spec) (v : WithTop ℚ) : Spec :=
  { sp with maxSize := max 0 v }

/-- Setter for `Spec.stretch` (`stretchProperty` with coercion
`Math.max(0, value | 0)`). -/
def Spec.setStretch (sp : Spec) (v : ℚ) : Spec :=
  { sp with stretch := max 0 (toInt32 v) }

/-- The `BoxSizer` working state from `phosphor-boxengine`: the four
constraint fields mirrored from a `Spec` plus the computed `size`
output field. -/
structure BoxSizer where
  sizeHint : ℚ := 0
  minSize : ℚ := 0
  maxSize : WithTop ℚ := ⊤
  stretch : ℤ := 1
  size : ℚ := 0
deriving DecidableEq, Repr

/-- Constraint parameters of a box sizer (everything except the
computed `size` field). -/
structure SizerParams where
  sizeHint : ℚ
  minSize : ℚ
  maxSize : WithTop ℚ
  stretch : ℤ
deriving DecidableEq, Repr

/-- Extract the constraint parameters of a sizer. -/
def BoxSizer.params (s : BoxSizer) : SizerParams :=
  ⟨s.sizeHint, s.minSize, s.maxSize, s.stretch⟩

/-- Function `makeSizer`: create and initialize a box sizer from a
spec; after copying the four fields it raises `maxSize` to `minSize`
when the two are inverted (`sizer.maxSize = Math.max(sizer.minSize,
sizer.maxSize)`). -/
def makeSizer (sp : Spec) : BoxSizer :=
  { sizeHint := sp.sizeBasis
    minSize := sp.minSize
    maxSize := max (↑sp.minSize) sp.maxSize
    stretch := sp.stretch
    size := 0 }

theorem makeSizer_wf (sp : Spec) :
    (↑(makeSizer sp).minSize : WithTop ℚ) ≤ (makeSizer sp).maxSize :=
  le_max_left _ _

/-- Eligibility to receive growth: the sizer is strictly below its
maximum size. -/
def canGrow (s : BoxSizer) : Bool :=
  decide ((↑s.size : WithTop ℚ) < s.maxSize)

/-- Eligibility for the stretch-weighted growth phase: positive
stretch and strictly below the maximum size. -/
def canGrowStretch (s : BoxSizer) : Bool :=
  decide (0 < s.stretch) && canGrow s

/-- Eligibility to be shrunk: the sizer is strictly above its minimum
size. -/
def canShrink (s : BoxSizer) : Bool :=
  decide (s.minSize < s.size)

/-- Eligibility for the stretch-weighted shrink phase: positive
stretch and strictly above the minimum size. -/
def canShrinkStretch (s : BoxSizer) : Bool :=
  decide (0 < s.stretch) && canShrink s

/-- Stretch-proportional share of the remaining surplus or deficit
`r` for one pass, relative to the eligible set `es`. -/
def stretchAmt (r : ℚ) (es : List BoxSizer) (s : BoxSizer) : ℚ :=
  (s.stretch : ℚ) * r / ((es.map (fun t => (t.stretch : ℚ))).sum)

/-- Even share of the remaining surplus or deficit `r` for one pass
over the eligible set `es`. -/
def evenAmt (r : ℚ) (es : List BoxSizer) (_ : BoxSizer) : ℚ :=
  r / (es.length : ℚ)

/-- Growth of one eligible sizer by its share `amt s`, clamping at
`maxSize` when the share would push it past that bound; returns the
updated sizer and the amount actually consumed. -/
def growStep (amt : BoxSizer → ℚ) (s : BoxSizer) : BoxSizer × ℚ :=
  if s.maxSize ≤ (↑(s.size + amt s) : WithTop ℚ) then
    ({ s with size := WithTop.untop' s.size s.maxSize },
     WithTop.untop' s.size s.maxSize - s.size)
  else
    ({ s with size := s.size + amt s }, amt s)

/-- One growth pass: every sizer satisfying `P` takes a `growStep`;
returns the updated sizers and the total amount consumed. -/
def growPass (amt : BoxSizer → ℚ) (P : BoxSizer → Bool) :
    List BoxSizer → List BoxSizer × ℚ
  | [] => ([], 0)
  | s :: l =>
    let prev := growPass amt P l
    if P s then
      ((growStep amt s).1 :: prev.1, prev.2 + (growStep amt s).2)
    else (s :: prev.1, prev.2)

/-- Shrink of one eligible sizer by its share `amt s`, clamping at
`minSize` when the share would push it below that bound; returns the
updated sizer and the amount actually removed. -/
def shrinkStep (amt : BoxSizer → ℚ) (s : BoxSizer) : BoxSizer × ℚ :=
  if s.size - amt s ≤ s.minSize then
    ({ s with size := s.minSize }, s.size - s.minSize)
  else
    ({ s with size := s.size - amt s }, amt s)

/-- One shrink pass: every sizer satisfying `P` takes a `shrinkStep`;
returns the updated sizers and the total amount removed. -/
def shrinkPass (amt : BoxSizer → ℚ) (P : BoxSizer → Bool) :
    List BoxSizer → List BoxSizer × ℚ
  | [] => ([], 0)
  | s :: l =>
    let prev := shrinkPass amt P l
    if P s then
      ((shrinkStep amt s).1 :: prev.1, prev.2 + (shrinkStep amt s).2)
    else (s :: prev.1, prev.2)

/-- Iterated growth passes: repeat until the surplus is exhausted or
no sizer is eligible, folding each pass's unconsumed excess back into
the surplus for redistribution. -/
def growLoop (P : BoxSizer → Bool) (mkAmt : ℚ → List BoxSizer → BoxSizer → ℚ) :
    ℕ → List BoxSizer → ℚ → List BoxSizer × ℚ
  | 0, l, r => (l, r)
  | fuel + 1, l, r =>
    if r ≤ 0 then (l, r)
    else if l.filter P = [] then (l, r)
    else
      let out := growPass (mkAmt r (l.filter P)) P l
      growLoop P mkAmt fuel out.1 (r - out.2)

/-- Iterated shrink passes, symmetric to `growLoop`. -/
def shrinkLoop (P : BoxSizer → Bool) (mkAmt : ℚ → List BoxSizer → BoxSizer → ℚ) :
    ℕ → List BoxSizer → ℚ → List BoxSizer × ℚ
  | 0, l, r => (l, r)
  | fuel + 1, l, r =>
    if r ≤ 0 then (l, r)
    else if l.filter P = [] then (l, r)
    else
      let out := shrinkPass (mkAmt r (l.filter P)) P l
      shrinkLoop P mkAmt fuel out.1 (r - out.2)

/-- Baseline step of the distribution: each sizer starts at its
`sizeHint` clamped into `[minSize, maxSize]`. -/
def applyBaseline (s : BoxSizer) : BoxSizer :=
  { s with size := clampQ s.sizeHint s.minSize s.maxSize }

/-- Modelled from the spec: the `boxCalc` distribution algorithm of
the external `phosphor-boxengine` package (imported by
`src/index.ts`; its source is not part of this repository), following
§4.2's two-phase water-filling description: clamp each sizer to its
baseline, then distribute the surplus (or deficit) proportionally to
stretch among eligible sizers, folding the excess of bound-saturated
sizers back for redistribution, and finally distribute any remaining
surplus (or deficit) evenly among the sizers with zero stretch that
are still within bounds. -/
def boxCalc (l : List BoxSizer) (T : ℚ) : List BoxSizer :=
  let base := l.map applyBaseline
  let tot := (base.map BoxSizer.size).sum
  let fuel := l.length + 1
  if tot < T then
    let o1 := growLoop canGrowStretch stretchAmt fuel base (T - tot)
    (growLoop canGrow evenAmt fuel o1.1 o1.2).1
  else if T < tot then
    let o1 := shrinkLoop canShrinkStretch stretchAmt fuel base (tot - T)
    (shrinkLoop canShrink evenAmt fuel o1.1 o1.2).1
  else base

/-- Sum of the computed `size` fields of a sizer list. -/
def sizeSum (l : List BoxSizer) : ℚ :=
  (l.map BoxSizer.size).sum

/-- Sum of the `minSize` fields of a sizer list. -/
def minSum (l : List BoxSizer) : ℚ :=
  (l.map BoxSizer.minSize).sum

/-- Sum of the (possibly infinite) `maxSize` fields of a sizer list. -/
def maxSum (l : List BoxSizer) : WithTop ℚ :=
  (l.map BoxSizer.maxSize).sum

/-- Every sizer's computed size lies within its own bounds. -/
def InBounds (l : List BoxSizer) : Prop :=
  ∀ s ∈ l, s.minSize ≤ s.size ∧ (↑s.size : WithTop ℚ) ≤ s.maxSize

theorem coe_list_sum (xs : List ℚ) :
    ((xs.sum : ℚ) : WithTop ℚ) = (xs.map (fun q => (q : WithTop ℚ))).sum := by
  induction xs with
  | nil => simp
  | cons x xs ih => simp [ih]

theorem minSum_le_sizeSum {l : List BoxSizer} (h : InBounds l) :
    minSum l ≤ sizeSum l := by
  induction l with
  | nil => simp [minSum, sizeSum]
  | cons s l ih =>
    have hs := h s (List.mem_cons_self s l)
    have ht : InBounds l := fun t htl => h t (List.mem_cons_of_mem s htl)
    simp only [minSum, sizeSum, List.map_cons, List.sum_cons] at ih ⊢
    exact add_le_add hs.1 (ih ht)

theorem coe_sizeSum_le_maxSum {l : List BoxSizer} (h : InBounds l) :
    (↑(sizeSum l) : WithTop ℚ) ≤ maxSum l := by
  induction l with
  | nil => simp [maxSum, sizeSum]
  | cons s l ih =>
    have hs := h s (List.mem_cons_self s l)
    have ht : InBounds l := fun t htl => h t (List.mem_cons_of_mem s htl)
    simp only [maxSum, sizeSum, List.map_cons, List.sum_cons, WithTop.coe_add]
    exact add_le_add hs.2 (ih ht)

theorem params_minSize (s : BoxSizer) : s.params.minSize = s.minSize := rfl

theorem minSum_of_params {l₁ l₂ : List BoxSizer}
    (h : l₁.map BoxSizer.params = l₂.map BoxSizer.params) :
    minSum l₁ = minSum l₂ := by
  have h1 : l₁.map BoxSizer.minSize = (l₁.map BoxSizer.params).map SizerParams.minSize := by
    rw [List.map_map]; rfl
  have h2 : l₂.map BoxSizer.minSize = (l₂.map BoxSizer.params).map SizerParams.minSize := by
    rw [List.map_map]; rfl
  simp only [minSum, h1, h2, h]

theorem maxSum_of_params {l₁ l₂ : List BoxSizer}
    (h : l₁.map BoxSizer.params = l₂.map BoxSizer.params) :
    maxSum l₁ = maxSum l₂ := by
  have h1 : l₁.map BoxSizer.maxSize = (l₁.map BoxSizer.params).map SizerParams.maxSize := by
    rw [List.map_map]; rfl
  have h2 : l₂.map BoxSizer.maxSize = (l₂.map BoxSizer.params).map SizerParams.maxSize := by
    rw [List.map_map]; rfl
  simp only [maxSum, h1, h2, h]

theorem length_of_params {l₁ l₂ : List BoxSizer}
    (h : l₁.map BoxSizer.params = l₂.map BoxSizer.params) :
    l₁.length = l₂.length := by
  have := congrArg List.length h
  simpa using this

theorem applyBaseline_params (s : BoxSizer) :
    (applyBaseline s).params = s.params := rfl

theorem applyBaseline_bounds {s : BoxSizer}
    (h : (↑s.minSize : WithTop ℚ) ≤ s.maxSize) :
    s.minSize ≤ (applyBaseline s).size ∧
      (↑(applyBaseline s).size : WithTop ℚ) ≤ s.maxSize :=
  ⟨le_clampQ _ _ _, clampQ_le _ _ _ h⟩

theorem sizeSum_cons (s : BoxSizer) (l : List BoxSizer) :
    sizeSum (s :: l) = s.size + sizeSum l := by
  simp [sizeSum]

theorem minSum_cons (s : BoxSizer) (l : List BoxSizer) :
    minSum (s :: l) = s.minSize + minSum l := by
  simp [minSum]

theorem maxSum_cons (s : BoxSizer) (l : List BoxSizer) :
    maxSum (s :: l) = s.maxSize + maxSum l := by
  simp [maxSum]

section GrowPassLemmas

variable {amt : BoxSizer → ℚ} {P : BoxSizer → Bool} {s : BoxSizer} {l : List BoxSizer}

theorem growStep_params (amt : BoxSizer → ℚ) (s : BoxSizer) :
    ((growStep amt s).1).params = s.params := by
  rw [growStep]; split <;> rfl

theorem growStep_size (amt : BoxSizer → ℚ) (s : BoxSizer) :
    (growStep amt s).1.size = s.size + (growStep amt s).2 := by
  rw [growStep]; split
  · dsimp only; ring
  · rfl

theorem growStep_consumed_le (amt : BoxSizer → ℚ) (s : BoxSizer) :
    (growStep amt s).2 ≤ amt s := by
  rw [growStep]; split
  · rename_i hc
    cases hmm : s.maxSize with
    | top => rw [hmm, top_le_iff] at hc; exact absurd hc (by simp)
    | coe m =>
      rw [hmm, WithTop.coe_le_coe] at hc
      dsimp only; rw [WithTop.untop'_coe]
      linarith
  · exact le_refl _

theorem growStep_consumed_nonneg (h1 : (↑s.size : WithTop ℚ) ≤ s.maxSize)
    (h2 : 0 ≤ amt s) : 0 ≤ (growStep amt s).2 := by
  rw [growStep]; split
  · cases hmm : s.maxSize with
    | top => dsimp only; rw [WithTop.untop'_top]; simp
    | coe m =>
      rw [hmm, WithTop.coe_le_coe] at h1
      dsimp only; rw [WithTop.untop'_coe]
      linarith
  · exact h2

theorem growStep_bounds (hb : s.minSize ≤ s.size ∧ (↑s.size : WithTop ℚ) ≤ s.maxSize)
    (h2 : 0 ≤ amt s) :
    (growStep amt s).1.minSize ≤ (growStep amt s).1.size ∧
      (↑(growStep amt s).1.size : WithTop ℚ) ≤ (growStep amt s).1.maxSize := by
  rw [growStep]; split
  · rename_i hc
    cases hmm : s.maxSize with
    | top => rw [hmm, top_le_iff] at hc; exact absurd hc (by simp)
    | coe m =>
      have h1 := hb.2; rw [hmm, WithTop.coe_le_coe] at h1
      dsimp only; rw [WithTop.untop'_coe]
      exact ⟨le_trans hb.1 h1, le_refl _⟩
  · rename_i hc
    refine ⟨by dsimp only; linarith [hb.1], ?_⟩
    exact le_of_lt (not_le.mp hc)

theorem growPass_cons_pos (hp : P s = true) :
    growPass amt P (s :: l) =
      ((growStep amt s).1 :: (growPass amt P l).1,
       (growPass amt P l).2 + (growStep amt s).2) := by
  simp [growPass, hp]

theorem growPass_cons_neg (hp : ¬P s = true) :
    growPass amt P (s :: l) = (s :: (growPass amt P l).1, (growPass amt P l).2) := by
  simp [growPass, hp]

theorem growPass_sum (amt : BoxSizer → ℚ) (P : BoxSizer → Bool) (l : List BoxSizer) :
    sizeSum (growPass amt P l).1 = sizeSum l + (growPass amt P l).2 := by
  induction l with
  | nil => simp [growPass, sizeSum]
  | cons s l ih =>
    by_cases hp : P s
    · rw [growPass_cons_pos hp, sizeSum_cons, sizeSum_cons, growStep_size, ih]
      ring
    · rw [growPass_cons_neg hp, sizeSum_cons, sizeSum_cons, ih]
      ring

theorem growPass_params (amt : BoxSizer → ℚ) (P : BoxSizer → Bool) (l : List BoxSizer) :
    (growPass amt P l).1.map BoxSizer.params = l.map BoxSizer.params := by
  induction l with
  | nil => simp [growPass]
  | cons s l ih =>
    by_cases hp : P s
    · rw [growPass_cons_pos hp, List.map_cons, List.map_cons, ih,
        growStep_params]
    · rw [growPass_cons_neg hp, List.map_cons, List.map_cons, ih]

theorem growPass_bounds (hb : InBounds l)
    (ha : ∀ s ∈ l, P s = true → 0 ≤ amt s) :
    InBounds (growPass amt P l).1 := by
  induction l with
  | nil => simp [growPass, InBounds]
  | cons s l ih =>
    have hs := hb s (List.mem_cons_self s l)
    have hbt : InBounds l := fun t htl => hb t (List.mem_cons_of_mem s htl)
    have hat : ∀ t ∈ l, P t = true → 0 ≤ amt t :=
      fun t htl => ha t (List.mem_cons_of_mem s htl)
    have iht := ih hbt hat
    intro t ht
    by_cases hp : P s
    · rw [growPass_cons_pos hp] at ht
      rcases List.mem_cons.mp ht with rfl | htl
      · exact growStep_bounds hs (ha s (List.mem_cons_self s l) hp)
      · exact iht t htl
    · rw [growPass_cons_neg hp] at ht
      rcases List.mem_cons.mp ht with rfl | htl
      · exact hs
      · exact iht t htl

theorem growPass_consumed_nonneg (hb : InBounds l)
    (ha : ∀ s ∈ l, P s = true → 0 ≤ amt s) :
    0 ≤ (growPass amt P l).2 := by
  induction l with
  | nil => simp [growPass]
  | cons s l ih =>
    have hs := hb s (List.mem_cons_self s l)
    have hbt : InBounds l := fun t htl => hb t (List.mem_cons_of_mem s htl)
    have hat : ∀ t ∈ l, P t = true → 0 ≤ amt t :=
      fun t htl => ha t (List.mem_cons_of_mem s htl)
    have iht := ih hbt hat
    by_cases hp : P s
    · rw [growPass_cons_pos hp]
      have := growStep_consumed_nonneg hs.2 (ha s (List.mem_cons_self s l) hp)
      dsimp only; linarith
    · rw [growPass_cons_neg hp]; exact iht

theorem growPass_consumed_le (amt : BoxSizer → ℚ) (P : BoxSizer → Bool)
    (l : List BoxSizer) :
    (growPass amt P l).2 ≤ ((l.filter P).map amt).sum := by
  induction l with
  | nil => simp [growPass]
  | cons s l ih =>
    by_cases hp : P s
    · rw [growPass_cons_pos hp, List.filter_cons_of_pos hp, List.map_cons,
        List.sum_cons]
      have := growStep_consumed_le amt s
      dsimp only; linarith
    · rw [growPass_cons_neg hp,
        List.filter_cons_of_neg (by simpa using hp)]
      exact ih

theorem growPass_filter_le (amt : BoxSizer → ℚ) (P : BoxSizer → Bool)
    (l : List BoxSizer) :
    ((growPass amt P l).1.filter P).length ≤ (l.filter P).length := by
  induction l with
  | nil => simp [growPass]
  | cons s l ih =>
    by_cases hp : P s
    · rw [growPass_cons_pos hp, List.filter_cons_of_pos hp]
      rw [List.filter_cons]
      split
      · simpa using Nat.succ_le_succ ih
      · simpa using le_trans ih (Nat.le_succ _)
    · rw [growPass_cons_neg hp,
        List.filter_cons_of_neg (by simpa using hp),
        List.filter_cons_of_neg (by simpa using hp)]
      exact ih

theorem growPass_dichotomy
    (HPclamp : ∀ (t : BoxSizer) (m : ℚ), t.maxSize = (↑m : WithTop ℚ) →
      P { t with size := m } = false)
    (l : List BoxSizer) :
    (growPass amt P l).2 = ((l.filter P).map amt).sum ∨
      ((growPass amt P l).1.filter P).length < (l.filter P).length := by
  induction l with
  | nil => left; simp [growPass]
  | cons s l ih =>
    by_cases hp : P s
    · rcases lt_or_le ((↑(s.size + amt s) : WithTop ℚ)) s.maxSize with hlt | hge
      · -- no clamping on the head: the head consumes exactly `amt s`
        have hstep1 : (growStep amt s).1 = { s with size := s.size + amt s } := by
          rw [growStep, if_neg (not_le.mpr hlt)]
        have hstep2 : (growStep amt s).2 = amt s := by
          rw [growStep, if_neg (not_le.mpr hlt)]
        rcases ih with ihl | ihr
        · left
          rw [growPass_cons_pos hp, List.filter_cons_of_pos hp, List.map_cons,
            List.sum_cons]
          dsimp only
          rw [ihl, hstep2]; ring
        · right
          rw [growPass_cons_pos hp, List.filter_cons_of_pos hp]
          dsimp only
          rw [List.filter_cons]
          split
          · simpa using Nat.succ_lt_succ ihr
          · simpa using lt_trans ihr (Nat.lt_succ_self _)
      · -- the head clamps at its maximum and leaves the eligible set
        right
        cases hmm : s.maxSize with
        | top => rw [hmm, top_le_iff] at hge; exact absurd hge (by simp)
        | coe m =>
          have hstep1 : (growStep amt s).1 = { s with size := m } := by
            rw [growStep, if_pos (by rw [hmm]; exact hmm ▸ hge), hmm,
              WithTop.untop'_coe]
          have hhead : P (growStep amt s).1 = false := by
            rw [hstep1]; exact HPclamp s m hmm
          rw [growPass_cons_pos hp, List.filter_cons_of_pos hp,
            List.filter_cons_of_neg (by simp [hhead]), List.length_cons]
          exact Nat.lt_succ_of_le (growPass_filter_le amt P l)
    · rw [growPass_cons_neg hp,
        List.filter_cons_of_neg (by simpa using hp),
        List.filter_cons_of_neg (by simpa using hp)]
      exact ih

end GrowPassLemmas

section GrowLoopLemmas

variable {P : BoxSizer → Bool} {mkAmt : ℚ → List BoxSizer → BoxSizer → ℚ}

theorem growLoop_succ_le {fuel : ℕ} {l : List BoxSizer} {r : ℚ} (h : r ≤ 0) :
    growLoop P mkAmt (fuel + 1) l r = (l, r) := by
  simp [growLoop, h]

theorem growLoop_succ_empty {fuel : ℕ} {l : List BoxSizer} {r : ℚ}
    (h1 : ¬r ≤ 0) (h2 : l.filter P = []) :
    growLoop P mkAmt (fuel + 1) l r = (l, r) := by
  simp [growLoop, h1, h2]

theorem growLoop_succ_step {fuel : ℕ} {l : List BoxSizer} {r : ℚ}
    (h1 : ¬r ≤ 0) (h2 : l.filter P ≠ []) :
    growLoop P mkAmt (fuel + 1) l r =
      growLoop P mkAmt fuel (growPass (mkAmt r (l.filter P)) P l).1
        (r - (growPass (mkAmt r (l.filter P)) P l).2) := by
  simp [growLoop, h1, h2]

theorem growLoop_at_zero (fuel : ℕ) (l : List BoxSizer) :
    growLoop P mkAmt fuel l 0 = (l, 0) := by
  cases fuel with
  | zero => rfl
  | succ fuel => simp [growLoop]

theorem growLoop_inv
    (HA : ∀ (r : ℚ) (l : List BoxSizer), 0 < r →
      ∀ s ∈ l, P s = true → 0 ≤ mkAmt r (l.filter P) s)
    (HS : ∀ (r : ℚ) (l : List BoxSizer), 0 < r → l.filter P ≠ [] →
      ((l.filter P).map (mkAmt r (l.filter P))).sum = r)
    (fuel : ℕ) (l : List BoxSizer) (r : ℚ) (hb : InBounds l) (hr : 0 ≤ r) :
    InBounds (growLoop P mkAmt fuel l r).1 ∧
      0 ≤ (growLoop P mkAmt fuel l r).2 ∧
      sizeSum (growLoop P mkAmt fuel l r).1 + (growLoop P mkAmt fuel l r).2 =
        sizeSum l + r ∧
      (growLoop P mkAmt fuel l r).1.map BoxSizer.params =
        l.map BoxSizer.params := by
  induction fuel generalizing l r with
  | zero => exact ⟨hb, hr, rfl, rfl⟩
  | succ fuel ih =>
    by_cases h1 : r ≤ 0
    · rw [growLoop_succ_le h1]; exact ⟨hb, hr, rfl, rfl⟩
    · by_cases h2 : l.filter P = []
      · rw [growLoop_succ_empty h1 h2]; exact ⟨hb, hr, rfl, rfl⟩
      · rw [growLoop_succ_step h1 h2]
        have hr' : 0 < r := not_le.mp h1
        have hann := HA r l hr'
        have hb1 := growPass_bounds hb hann
        have hc0 := growPass_consumed_nonneg hb hann
        have hcle : (growPass (mkAmt r (l.filter P)) P l).2 ≤ r :=
          le_trans (growPass_consumed_le _ _ _) (le_of_eq (HS r l hr' h2))
        obtain ⟨A, B, C, D⟩ := ih (growPass (mkAmt r (l.filter P)) P l).1
          (r - (growPass (mkAmt r (l.filter P)) P l).2) hb1 (by linarith)
        refine ⟨A, B, ?_, ?_⟩
        · rw [C, growPass_sum]; ring
        · rw [D, growPass_params]

theorem growLoop_exit
    (HA : ∀ (r : ℚ) (l : List BoxSizer), 0 < r →
      ∀ s ∈ l, P s = true → 0 ≤ mkAmt r (l.filter P) s)
    (HS : ∀ (r : ℚ) (l : List BoxSizer), 0 < r → l.filter P ≠ [] →
      ((l.filter P).map (mkAmt r (l.filter P))).sum = r)
    (HPclamp : ∀ (t : BoxSizer) (m : ℚ), t.maxSize = (↑m : WithTop ℚ) →
      P { t with size := m } = false)
    (fuel : ℕ) (l : List BoxSizer) (r : ℚ) (hb : InBounds l) (hr : 0 ≤ r)
    (hf : (l.filter P).length < fuel) :
    (growLoop P mkAmt fuel l r).2 = 0 ∨
      (growLoop P mkAmt fuel l r).1.filter P = [] := by
  induction fuel generalizing l r with
  | zero => exact absurd hf (Nat.not_lt_zero _)
  | succ fuel ih =>
    by_cases h1 : r ≤ 0
    · left; rw [growLoop_succ_le h1]; exact le_antisymm h1 hr
    · by_cases h2 : l.filter P = []
      · right; rw [growLoop_succ_empty h1 h2]; exact h2
      · rw [growLoop_succ_step h1 h2]
        have hr' : 0 < r := not_le.mp h1
        have hann := HA r l hr'
        rcases growPass_dichotomy HPclamp l with hfull | hdec
        · left
          have hz : r - (growPass (mkAmt r (l.filter P)) P l).2 = 0 := by
            rw [hfull, HS r l hr' h2]; ring
          rw [hz, growLoop_at_zero]
        · have hb1 := growPass_bounds hb hann
          have hr1 : 0 ≤ r - (growPass (mkAmt r (l.filter P)) P l).2 := by
            have := le_trans (growPass_consumed_le _ _ _)
              (le_of_eq (HS r l hr' h2))
            linarith
          exact ih _ _ hb1 hr1 (Nat.lt_of_lt_of_le hdec (Nat.lt_succ_iff.mp hf))

end GrowLoopLemmas

section ShrinkPassLemmas

variable {amt : BoxSizer → ℚ} {P : BoxSizer → Bool} {s : BoxSizer} {l : List BoxSizer}

theorem shrinkStep_params (amt : BoxSizer → ℚ) (s : BoxSizer) :
    ((shrinkStep amt s).1).params = s.params := by
  rw [shrinkStep]; split <;> rfl

theorem shrinkStep_size (amt : BoxSizer → ℚ) (s : BoxSizer) :
    (shrinkStep amt s).1.size = s.size - (shrinkStep amt s).2 := by
  rw [shrinkStep]; split
  · dsimp only; ring
  · rfl

theorem shrinkStep_consumed_le (amt : BoxSizer → ℚ) (s : BoxSizer) :
    (shrinkStep amt s).2 ≤ amt s := by
  rw [shrinkStep]; split
  · rename_i hc
    dsimp only; linarith
  · exact le_refl _

theorem shrinkStep_consumed_nonneg (h1 : s.minSize ≤ s.size)
    (h2 : 0 ≤ amt s) : 0 ≤ (shrinkStep amt s).2 := by
  rw [shrinkStep]; split
  · dsimp only; linarith
  · exact h2

theorem shrinkStep_bounds (hb : s.minSize ≤ s.size ∧ (↑s.size : WithTop ℚ) ≤ s.maxSize)
    (h2 : 0 ≤ amt s) :
    (shrinkStep amt s).1.minSize ≤ (shrinkStep amt s).1.size ∧
      (↑(shrinkStep amt s).1.size : WithTop ℚ) ≤ (shrinkStep amt s).1.maxSize := by
  rw [shrinkStep]; split
  · refine ⟨le_refl _, ?_⟩
    exact le_trans (WithTop.coe_le_coe.mpr hb.1) hb.2
  · rename_i hc
    refine ⟨le_of_lt (by dsimp only; linarith [not_le.mp hc]), ?_⟩
    exact le_trans (WithTop.coe_le_coe.mpr (by dsimp only; linarith)) hb.2

theorem shrinkPass_cons_pos (hp : P s = true) :
    shrinkPass amt P (s :: l) =
      ((shrinkStep amt s).1 :: (shrinkPass amt P l).1,
       (shrinkPass amt P l).2 + (shrinkStep amt s).2) := by
  simp [shrinkPass, hp]

theorem shrinkPass_cons_neg (hp : ¬P s = true) :
    shrinkPass amt P (s :: l) = (s :: (shrinkPass amt P l).1, (shrinkPass amt P l).2) := by
  simp [shrinkPass, hp]

theorem shrinkPass_sum (amt : BoxSizer → ℚ) (P : BoxSizer → Bool) (l : List BoxSizer) :
    sizeSum (shrinkPass amt P l).1 = sizeSum l - (shrinkPass amt P l).2 := by
  induction l with
  | nil => simp [shrinkPass, sizeSum]
  | cons s l ih =>
    by_cases hp : P s
    · rw [shrinkPass_cons_pos hp, sizeSum_cons, sizeSum_cons, shrinkStep_size, ih]
      ring
    · rw [shrinkPass_cons_neg hp, sizeSum_cons, sizeSum_cons, ih]
      ring

theorem shrinkPass_params (amt : BoxSizer → ℚ) (P : BoxSizer → Bool) (l : List BoxSizer) :
    (shrinkPass amt P l).1.map BoxSizer.params = l.map BoxSizer.params := by
  induction l with
  | nil => simp [shrinkPass]
  | cons s l ih =>
    by_cases hp : P s
    · rw [shrinkPass_cons_pos hp, List.map_cons, List.map_cons, ih,
        shrinkStep_params]
    · rw [shrinkPass_cons_neg hp, List.map_cons, List.map_cons, ih]

theorem shrinkPass_bounds (hb : InBounds l)
    (ha : ∀ s ∈ l, P s = true → 0 ≤ amt s) :
    InBounds (shrinkPass amt P l).1 := by
  induction l with
  | nil => simp [shrinkPass, InBounds]
  | cons s l ih =>
    have hs := hb s (List.mem_cons_self s l)
    have hbt : InBounds l := fun t htl => hb t (List.mem_cons_of_mem s htl)
    have hat : ∀ t ∈ l, P t = true → 0 ≤ amt t :=
      fun t htl => ha t (List.mem_cons_of_mem s htl)
    have iht := ih hbt hat
    intro t ht
    by_cases hp : P s
    · rw [shrinkPass_cons_pos hp] at ht
      rcases List.mem_cons.mp ht with rfl | htl
      · exact shrinkStep_bounds hs (ha s (List.mem_cons_self s l) hp)
      · exact iht t htl
    · rw [shrinkPass_cons_neg hp] at ht
      rcases List.mem_cons.mp ht with rfl | htl
      · exact hs
      · exact iht t htl

theorem shrinkPass_consumed_nonneg (hb : InBounds l)
    (ha : ∀ s ∈ l, P s = true → 0 ≤ amt s) :
    0 ≤ (shrinkPass amt P l).2 := by
  induction l with
  | nil => simp [shrinkPass]
  | cons s l ih =>
    have hs := hb s (List.mem_cons_self s l)
    have hbt : InBounds l := fun t htl => hb t (List.mem_cons_of_mem s htl)
    have hat : ∀ t ∈ l, P t = true → 0 ≤ amt t :=
      fun t htl => ha t (List.mem_cons_of_mem s htl)
    have iht := ih hbt hat
    by_cases hp : P s
    · rw [shrinkPass_cons_pos hp]
      have := shrinkStep_consumed_nonneg hs.1 (ha s (List.mem_cons_self s l) hp)
      dsimp only; linarith
    · rw [shrinkPass_cons_neg hp]; exact iht

theorem shrinkPass_consumed_le (amt : BoxSizer → ℚ) (P : BoxSizer → Bool)
    (l : List BoxSizer) :
    (shrinkPass amt P l).2 ≤ ((l.filter P).map amt).sum := by
  induction l with
  | nil => simp [shrinkPass]
  | cons s l ih =>
    by_cases hp : P s
    · rw [shrinkPass_cons_pos hp, List.filter_cons_of_pos hp, List.map_cons,
        List.sum_cons]
      have := shrinkStep_consumed_le amt s
      dsimp only; linarith
    · rw [shrinkPass_cons_neg hp,
        List.filter_cons_of_neg (by simpa using hp)]
      exact ih

theorem shrinkPass_filter_le (amt : BoxSizer → ℚ) (P : BoxSizer → Bool)
    (l : List BoxSizer) :
    ((shrinkPass amt P l).1.filter P).length ≤ (l.filter P).length := by
  induction l with
  | nil => simp [shrinkPass]
  | cons s l ih =>
    by_cases hp : P s
    · rw [shrinkPass_cons_pos hp, List.filter_cons_of_pos hp]
      rw [List.filter_cons]
      split
      · simpa using Nat.succ_le_succ ih
      · simpa using le_trans ih (Nat.le_succ _)
    · rw [shrinkPass_cons_neg hp,
        List.filter_cons_of_neg (by simpa using hp),
        List.filter_cons_of_neg (by simpa using hp)]
      exact ih

theorem shrinkPass_dichotomy
    (HPclamp : ∀ t : BoxSizer, P { t with size := t.minSize } = false)
    (l : List BoxSizer) :
    (shrinkPass amt P l).2 = ((l.filter P).map amt).sum ∨
      ((shrinkPass amt P l).1.filter P).length < (l.filter P).length := by
  induction l with
  | nil => left; simp [shrinkPass]
  | cons s l ih =>
    by_cases hp : P s
    · rcases lt_or_le s.minSize (s.size - amt s) with hlt | hge
      · have hstep2 : (shrinkStep amt s).2 = amt s := by
          rw [shrinkStep, if_neg (not_le.mpr hlt)]
        rcases ih with ihl | ihr
        · left
          rw [shrinkPass_cons_pos hp, List.filter_cons_of_pos hp, List.map_cons,
            List.sum_cons]
          dsimp only
          rw [ihl, hstep2]; ring
        · right
          rw [shrinkPass_cons_pos hp, List.filter_cons_of_pos hp]
          dsimp only
          rw [List.filter_cons]
          split
          · simpa using Nat.succ_lt_succ ihr
          · simpa using lt_trans ihr (Nat.lt_succ_self _)
      · right
        have hstep1 : (shrinkStep amt s).1 = { s with size := s.minSize } := by
          rw [shrinkStep, if_pos hge]
        have hhead : P (shrinkStep amt s).1 = false := by
          rw [hstep1]; exact HPclamp s
        rw [shrinkPass_cons_pos hp, List.filter_cons_of_pos hp,
          List.filter_cons_of_neg (by simp [hhead]), List.length_cons]
        exact Nat.lt_succ_of_le (shrinkPass_filter_le amt P l)
    · rw [shrinkPass_cons_neg hp,
        List.filter_cons_of_neg (by simpa using hp),
        List.filter_cons_of_neg (by simpa using hp)]
      exact ih

end ShrinkPassLemmas

section ShrinkLoopLemmas

variable {P : BoxSizer → Bool} {mkAmt : ℚ → List BoxSizer → BoxSizer → ℚ}

theorem shrinkLoop_succ_le {fuel : ℕ} {l : List BoxSizer} {r : ℚ} (h : r ≤ 0) :
    shrinkLoop P mkAmt (fuel + 1) l r = (l, r) := by
  simp [shrinkLoop, h]

theorem shrinkLoop_succ_empty {fuel : ℕ} {l : List BoxSizer} {r : ℚ}
    (h1 : ¬r ≤ 0) (h2 : l.filter P = []) :
    shrinkLoop P mkAmt (fuel + 1) l r = (l, r) := by
  simp [shrinkLoop, h1, h2]

theorem shrinkLoop_succ_step {fuel : ℕ} {l : List BoxSizer} {r : ℚ}
    (h1 : ¬r ≤ 0) (h2 : l.filter P ≠ []) :
    shrinkLoop P mkAmt (fuel + 1) l r =
      shrinkLoop P mkAmt fuel (shrinkPass (mkAmt r (l.filter P)) P l).1
        (r - (shrinkPass (mkAmt r (l.filter P)) P l).2) := by
  simp [shrinkLoop, h1, h2]

theorem shrinkLoop_at_zero (fuel : ℕ) (l : List BoxSizer) :
    shrinkLoop P mkAmt fuel l 0 = (l, 0) := by
  cases fuel with
  | zero => rfl
  | succ fuel => simp [shrinkLoop]

theorem shrinkLoop_inv
    (HA : ∀ (r : ℚ) (l : List BoxSizer), 0 < r →
      ∀ s ∈ l, P s = true → 0 ≤ mkAmt r (l.filter P) s)
    (HS : ∀ (r : ℚ) (l : List BoxSizer), 0 < r → l.filter P ≠ [] →
      ((l.filter P).map (mkAmt r (l.filter P))).sum = r)
    (fuel : ℕ) (l : List BoxSizer) (r : ℚ) (hb : InBounds l) (hr : 0 ≤ r) :
    InBounds (shrinkLoop P mkAmt fuel l r).1 ∧
      0 ≤ (shrinkLoop P mkAmt fuel l r).2 ∧
      sizeSum (shrinkLoop P mkAmt fuel l r).1 - (shrinkLoop P mkAmt fuel l r).2 =
        sizeSum l - r ∧
      (shrinkLoop P mkAmt fuel l r).1.map BoxSizer.params =
        l.map BoxSizer.params := by
  induction fuel generalizing l r with
  | zero => exact ⟨hb, hr, rfl, rfl⟩
  | succ fuel ih =>
    by_cases h1 : r ≤ 0
    · rw [shrinkLoop_succ_le h1]; exact ⟨hb, hr, rfl, rfl⟩
    · by_cases h2 : l.filter P = []
      · rw [shrinkLoop_succ_empty h1 h2]; exact ⟨hb, hr, rfl, rfl⟩
      · rw [shrinkLoop_succ_step h1 h2]
        have hr' : 0 < r := not_le.mp h1
        have hann := HA r l hr'
        have hb1 := shrinkPass_bounds hb hann
        have hc0 := shrinkPass_consumed_nonneg hb hann
        have hcle : (shrinkPass (mkAmt r (l.filter P)) P l).2 ≤ r :=
          le_trans (shrinkPass_consumed_le _ _ _) (le_of_eq (HS r l hr' h2))
        obtain ⟨A, B, C, D⟩ := ih (shrinkPass (mkAmt r (l.filter P)) P l).1
          (r - (shrinkPass (mkAmt r (l.filter P)) P l).2) hb1 (by linarith)
        refine ⟨A, B, ?_, ?_⟩
        · rw [C, shrinkPass_sum]; ring
        · rw [D, shrinkPass_params]

theorem shrinkLoop_exit
    (HA : ∀ (r : ℚ) (l : List BoxSizer), 0 < r →
      ∀ s ∈ l, P s = true → 0 ≤ mkAmt r (l.filter P) s)
    (HS : ∀ (r : ℚ) (l : List BoxSizer), 0 < r → l.filter P ≠ [] →
      ((l.filter P).map (mkAmt r (l.filter P))).sum = r)
    (HPclamp : ∀ t : BoxSizer, P { t with size := t.minSize } = false)
    (fuel : ℕ) (l : List BoxSizer) (r : ℚ) (hb : InBounds l) (hr : 0 ≤ r)
    (hf : (l.filter P).length < fuel) :
    (shrinkLoop P mkAmt fuel l r).2 = 0 ∨
      (shrinkLoop P mkAmt fuel l r).1.filter P = [] := by
  induction fuel generalizing l r with
  | zero => exact absurd hf (Nat.not_lt_zero _)
  | succ fuel ih =>
    by_cases h1 : r ≤ 0
    · left; rw [shrinkLoop_succ_le h1]; exact le_antisymm h1 hr
    · by_cases h2 : l.filter P = []
      · right; rw [shrinkLoop_succ_empty h1 h2]; exact h2
      · rw [shrinkLoop_succ_step h1 h2]
        have hr' : 0 < r := not_le.mp h1
        have hann := HA r l hr'
        rcases shrinkPass_dichotomy HPclamp l with hfull | hdec
        · left
          have hz : r - (shrinkPass (mkAmt r (l.filter P)) P l).2 = 0 := by
            rw [hfull, HS r l hr' h2]; ring
          rw [hz, shrinkLoop_at_zero]
        · have hb1 := shrinkPass_bounds hb hann
          have hr1 : 0 ≤ r - (shrinkPass (mkAmt r (l.filter P)) P l).2 := by
            have := le_trans (shrinkPass_consumed_le _ _ _)
              (le_of_eq (HS r l hr' h2))
            linarith
          exact ih _ _ hb1 hr1 (Nat.lt_of_lt_of_le hdec (Nat.lt_succ_iff.mp hf))

end ShrinkLoopLemmas

section AmountLemmas

theorem stretch_pos_of_canGrowStretch {s : BoxSizer}
    (h : canGrowStretch s = true) : 0 < s.stretch := by
  have := (Bool.and_eq_true _ _).mp h
  simpa using this.1

theorem stretch_pos_of_canShrinkStretch {s : BoxSizer}
    (h : canShrinkStretch s = true) : 0 < s.stretch := by
  have := (Bool.and_eq_true _ _).mp h
  simpa using this.1

theorem stretchSum_nonneg (es : List BoxSizer)
    (hall : ∀ s ∈ es, 0 < s.stretch) :
    0 ≤ (es.map (fun t => (t.stretch : ℚ))).sum := by
  apply List.sum_nonneg
  intro x hx
  obtain ⟨s, hs, rfl⟩ := List.mem_map.mp hx
  exact_mod_cast le_of_lt (hall s hs)

theorem stretchSum_pos (es : List BoxSizer) (hne : es ≠ [])
    (hall : ∀ s ∈ es, 0 < s.stretch) :
    0 < (es.map (fun t => (t.stretch : ℚ))).sum := by
  cases es with
  | nil => exact absurd rfl hne
  | cons s rest =>
    simp only [List.map_cons, List.sum_cons]
    have h1 : (0 : ℚ) < (s.stretch : ℚ) := by
      exact_mod_cast hall s (List.mem_cons_self s rest)
    have h2 : 0 ≤ (rest.map (fun t => (t.stretch : ℚ))).sum :=
      stretchSum_nonneg rest (fun t ht => hall t (List.mem_cons_of_mem s ht))
    linarith

theorem stretchAmt_nonneg (r : ℚ) (es : List BoxSizer) (s : BoxSizer)
    (hr : 0 ≤ r) (hst : 0 < s.stretch)
    (hD : 0 ≤ (es.map (fun t => (t.stretch : ℚ))).sum) :
    0 ≤ stretchAmt r es s := by
  apply div_nonneg _ hD
  have : (0 : ℚ) ≤ (s.stretch : ℚ) := by exact_mod_cast le_of_lt hst
  exact mul_nonneg this hr

theorem stretchAmt_sum (r : ℚ) (es : List BoxSizer) (hne : es ≠ [])
    (hall : ∀ s ∈ es, 0 < s.stretch) :
    (es.map (stretchAmt r es)).sum = r := by
  have hD := stretchSum_pos es hne hall
  have hmap : es.map (stretchAmt r es) =
      es.map (fun s => (s.stretch : ℚ) *
        (r / (es.map (fun t => (t.stretch : ℚ))).sum)) := by
    apply List.map_congr_left
    intro s _
    rw [stretchAmt, mul_div_assoc]
  rw [hmap, List.sum_map_mul_right, mul_comm,
    div_mul_cancel₀ _ (ne_of_gt hD)]

theorem evenAmt_nonneg (r : ℚ) (es : List BoxSizer) (s : BoxSizer) (hr : 0 ≤ r) :
    0 ≤ evenAmt r es s := by
  apply div_nonneg hr
  exact_mod_cast Nat.zero_le _

theorem evenAmt_sum (r : ℚ) (es : List BoxSizer) (hne : es ≠ []) :
    (es.map (evenAmt r es)).sum = r := by
  have hlen : (0 : ℚ) < (es.length : ℚ) := by
    have : 0 < es.length := List.length_pos.mpr hne
    exact_mod_cast this
  rw [show es.map (evenAmt r es) = es.map (fun _ => r / (es.length : ℚ)) from rfl,
    List.map_const', List.sum_replicate, nsmul_eq_mul]
  field_simp

theorem canGrow_clamped (t : BoxSizer) (m : ℚ) (h : t.maxSize = (↑m : WithTop ℚ)) :
    canGrow { t with size := m } = false := by
  simp [canGrow, h]

theorem canGrowStretch_clamped (t : BoxSizer) (m : ℚ)
    (h : t.maxSize = (↑m : WithTop ℚ)) :
    canGrowStretch { t with size := m } = false := by
  simp [canGrowStretch, canGrow, h]

theorem canShrink_clamped (t : BoxSizer) :
    canShrink { t with size := t.minSize } = false := by
  simp [canShrink]

theorem canShrinkStretch_clamped (t : BoxSizer) :
    canShrinkStretch { t with size := t.minSize } = false := by
  simp [canShrinkStretch, canShrink]

theorem growStretch_HA : ∀ (r : ℚ) (l : List BoxSizer), 0 < r →
    ∀ s ∈ l, canGrowStretch s = true →
      0 ≤ stretchAmt r (l.filter canGrowStretch) s := by
  intro r l hr s hs hp
  apply stretchAmt_nonneg _ _ _ (le_of_lt hr) (stretch_pos_of_canGrowStretch hp)
  apply stretchSum_nonneg
  intro t ht
  exact stretch_pos_of_canGrowStretch (List.mem_filter.mp ht).2

theorem growStretch_HS : ∀ (r : ℚ) (l : List BoxSizer), 0 < r →
    l.filter canGrowStretch ≠ [] →
      ((l.filter canGrowStretch).map
        (stretchAmt r (l.filter canGrowStretch))).sum = r := by
  intro r l _ hne
  apply stretchAmt_sum _ _ hne
  intro t ht
  exact stretch_pos_of_canGrowStretch (List.mem_filter.mp ht).2

theorem shrinkStretch_HA : ∀ (r : ℚ) (l : List BoxSizer), 0 < r →
    ∀ s ∈ l, canShrinkStretch s = true →
      0 ≤ stretchAmt r (l.filter canShrinkStretch) s := by
  intro r l hr s hs hp
  apply stretchAmt_nonneg _ _ _ (le_of_lt hr) (stretch_pos_of_canShrinkStretch hp)
  apply stretchSum_nonneg
  intro t ht
  exact stretch_pos_of_canShrinkStretch (List.mem_filter.mp ht).2

theorem shrinkStretch_HS : ∀ (r : ℚ) (l : List BoxSizer), 0 < r →
    l.filter canShrinkStretch ≠ [] →
      ((l.filter canShrinkStretch).map
        (stretchAmt r (l.filter canShrinkStretch))).sum = r := by
  intro r l _ hne
  apply stretchAmt_sum _ _ hne
  intro t ht
  exact stretch_pos_of_canShrinkStretch (List.mem_filter.mp ht).2

theorem even_HA (P : BoxSizer → Bool) : ∀ (r : ℚ) (l : List BoxSizer), 0 < r →
    ∀ s ∈ l, P s = true → 0 ≤ evenAmt r (l.filter P) s := by
  intro r l hr s _ _
  exact evenAmt_nonneg _ _ _ (le_of_lt hr)

theorem even_HS (P : BoxSizer → Bool) : ∀ (r : ℚ) (l : List BoxSizer), 0 < r →
    l.filter P ≠ [] → ((l.filter P).map (evenAmt r (l.filter P))).sum = r := by
  intro r l _ hne
  exact evenAmt_sum _ _ hne

end AmountLemmas

theorem all_at_max {l : List BoxSizer} (hb : InBounds l)
    (hf : l.filter canGrow = []) :
    (↑(sizeSum l) : WithTop ℚ) = maxSum l := by
  have hpt : ∀ s ∈ l, (↑s.size : WithTop ℚ) = s.maxSize := by
    intro s hs
    have hng : ¬canGrow s = true := List.filter_eq_nil_iff.mp hf s hs
    have hnlt : ¬((↑s.size : WithTop ℚ) < s.maxSize) := by
      simpa [canGrow] using hng
    exact le_antisymm (hb s hs).2 (not_lt.mp hnlt)
  clear hb hf
  induction l with
  | nil => simp [sizeSum, maxSum]
  | cons s l ih =>
    rw [sizeSum_cons, maxSum_cons, WithTop.coe_add,
      hpt s (List.mem_cons_self s l),
      ih (fun t ht => hpt t (List.mem_cons_of_mem s ht))]

theorem all_at_min {l : List BoxSizer} (hb : InBounds l)
    (hf : l.filter canShrink = []) :
    sizeSum l = minSum l := by
  have hpt : ∀ s ∈ l, s.size = s.minSize := by
    intro s hs
    have hng : ¬canShrink s = true := List.filter_eq_nil_iff.mp hf s hs
    have hnlt : ¬(s.minSize < s.size) := by
      simpa [canShrink] using hng
    exact le_antisymm (not_lt.mp hnlt) (hb s hs).1
  clear hb hf
  induction l with
  | nil => simp [sizeSum, minSum]
  | cons s l ih =>
    rw [sizeSum_cons, minSum_cons, hpt s (List.mem_cons_self s l),
      ih (fun t ht => hpt t (List.mem_cons_of_mem s ht))]

theorem coe_minSum_le_maxSum {l : List BoxSizer}
    (hwf : ∀ s ∈ l, (↑s.minSize : WithTop ℚ) ≤ s.maxSize) :
    (↑(minSum l) : WithTop ℚ) ≤ maxSum l := by
  induction l with
  | nil => simp [minSum, maxSum]
  | cons s l ih =>
    have hs := hwf s (List.mem_cons_self s l)
    have ht := fun t htl => hwf t (List.mem_cons_of_mem s htl)
    rw [minSum_cons, maxSum_cons, WithTop.coe_add]
    exact add_le_add hs (ih ht)

theorem baseline_bounds {l : List BoxSizer}
    (hwf : ∀ s ∈ l, (↑s.minSize : WithTop ℚ) ≤ s.maxSize) :
    InBounds (l.map applyBaseline) := by
  intro t ht
  obtain ⟨s, hs, rfl⟩ := List.mem_map.mp ht
  exact applyBaseline_bounds (hwf s hs)

theorem baseline_params (l : List BoxSizer) :
    (l.map applyBaseline).map BoxSizer.params = l.map BoxSizer.params := by
  rw [List.map_map]; rfl

theorem boxCalc_grow_eq (l : List BoxSizer) (T : ℚ)
    (h : sizeSum (l.map applyBaseline) < T) :
    boxCalc l T =
      (growLoop canGrow evenAmt (l.length + 1)
        (growLoop canGrowStretch stretchAmt (l.length + 1) (l.map applyBaseline)
          (T - sizeSum (l.map applyBaseline))).1
        (growLoop canGrowStretch stretchAmt (l.length + 1) (l.map applyBaseline)
          (T - sizeSum (l.map applyBaseline))).2).1 := by
  simp only [boxCalc, sizeSum] at h ⊢
  rw [if_pos h]

theorem boxCalc_shrink_eq (l : List BoxSizer) (T : ℚ)
    (h : T < sizeSum (l.map applyBaseline)) :
    boxCalc l T =
      (shrinkLoop canShrink evenAmt (l.length + 1)
        (shrinkLoop canShrinkStretch stretchAmt (l.length + 1) (l.map applyBaseline)
          (sizeSum (l.map applyBaseline) - T)).1
        (shrinkLoop canShrinkStretch stretchAmt (l.length + 1) (l.map applyBaseline)
          (sizeSum (l.map applyBaseline) - T)).2).1 := by
  simp only [boxCalc, sizeSum] at h ⊢
  rw [if_neg (by linarith), if_pos h]

theorem boxCalc_base_eq (l : List BoxSizer) (T : ℚ)
    (h : sizeSum (l.map applyBaseline) = T) :
    boxCalc l T = l.map applyBaseline := by
  simp only [boxCalc, sizeSum] at h ⊢
  rw [if_neg (by linarith), if_neg (by linarith)]

/-- Conservation of the distribution algorithm: for well-formed sizers
the solved sizes sum exactly to the available extent clamped between
the aggregate minimum and the aggregate maximum. -/
theorem boxCalc_conservation (l : List BoxSizer) (T : ℚ)
    (hwf : ∀ s ∈ l, (↑s.minSize : WithTop ℚ) ≤ s.maxSize) :
    (↑(sizeSum (boxCalc l T)) : WithTop ℚ) =
      max (↑(minSum l)) (min (↑T) (maxSum l)) := by
  have hbb : InBounds (l.map applyBaseline) := baseline_bounds hwf
  have hbp : (l.map applyBaseline).map BoxSizer.params = l.map BoxSizer.params :=
    baseline_params l
  set base := l.map applyBaseline with hbaseEq
  have hbl : base.length = l.length := by rw [hbaseEq, List.length_map]
  rcases lt_trichotomy (sizeSum base) T with hlt | heq | hgt
  · -- surplus: the two growth phases run
    rw [boxCalc_grow_eq l T hlt, ← hbaseEq]
    set o1 := growLoop canGrowStretch stretchAmt (l.length + 1) base
      (T - sizeSum base) with ho1
    obtain ⟨A1, B1, C1, D1⟩ := growLoop_inv growStretch_HA growStretch_HS
      (l.length + 1) base (T - sizeSum base) hbb (by linarith)
    rw [← ho1] at A1 B1 C1 D1
    set o2 := growLoop canGrow evenAmt (l.length + 1) o1.1 o1.2 with ho2
    obtain ⟨A2, B2, C2, D2⟩ := growLoop_inv (even_HA canGrow) (even_HS canGrow)
      (l.length + 1) o1.1 o1.2 A1 B1
    rw [← ho2] at A2 B2 C2 D2
    have hflt : (o1.1.filter canGrow).length < l.length + 1 := by
      have h1 : (o1.1.filter canGrow).length ≤ o1.1.length :=
        List.length_filter_le _ _
      have h2 : o1.1.length = base.length := length_of_params D1
      omega
    have hexit := growLoop_exit (even_HA canGrow) (even_HS canGrow)
      canGrow_clamped (l.length + 1) o1.1 o1.2 A1 B1 hflt
    rw [← ho2] at hexit
    have hmass : sizeSum o2.1 + o2.2 = T := by rw [C2, C1]; ring
    have hmin2 : minSum o2.1 = minSum l := minSum_of_params (by rw [D2, D1, hbp])
    have hmax2 : maxSum o2.1 = maxSum l := maxSum_of_params (by rw [D2, D1, hbp])
    rcases hexit with hz | hallmax
    · have hS : sizeSum o2.1 = T := by rw [hz] at hmass; linarith
      have h1 : minSum l ≤ T := by
        rw [← hmin2, ← hS]; exact minSum_le_sizeSum A2
      have h2 : (↑T : WithTop ℚ) ≤ maxSum l := by
        rw [← hmax2, ← hS]; exact coe_sizeSum_le_maxSum A2
      rw [hS, min_eq_left h2, max_eq_right (WithTop.coe_le_coe.mpr h1)]
    · have hSmax : (↑(sizeSum o2.1) : WithTop ℚ) = maxSum l := by
        rw [← hmax2]; exact all_at_max A2 hallmax
      have hle : sizeSum o2.1 ≤ T := by linarith
      have hTge : maxSum l ≤ (↑T : WithTop ℚ) := by
        rw [← hSmax]; exact WithTop.coe_le_coe.mpr hle
      have hminle : (↑(minSum l) : WithTop ℚ) ≤ maxSum l := by
        rw [← hSmax]
        apply WithTop.coe_le_coe.mpr
        rw [← hmin2]; exact minSum_le_sizeSum A2
      rw [min_eq_right hTge, max_eq_right hminle, hSmax]
  · -- exact fit: the clamped baselines already sum to the target
    rw [boxCalc_base_eq l T heq, ← hbaseEq]
    have h1 : minSum l ≤ T := by
      rw [← minSum_of_params hbp, ← heq]; exact minSum_le_sizeSum hbb
    have h2 : (↑T : WithTop ℚ) ≤ maxSum l := by
      rw [← maxSum_of_params hbp, ← heq]; exact coe_sizeSum_le_maxSum hbb
    rw [heq, min_eq_left h2, max_eq_right (WithTop.coe_le_coe.mpr h1)]
  · -- deficit: the two shrink phases run
    rw [boxCalc_shrink_eq l T hgt, ← hbaseEq]
    set o1 := shrinkLoop canShrinkStretch stretchAmt (l.length + 1) base
      (sizeSum base - T) with ho1
    obtain ⟨A1, B1, C1, D1⟩ := shrinkLoop_inv shrinkStretch_HA shrinkStretch_HS
      (l.length + 1) base (sizeSum base - T) hbb (by linarith)
    rw [← ho1] at A1 B1 C1 D1
    set o2 := shrinkLoop canShrink evenAmt (l.length + 1) o1.1 o1.2 with ho2
    obtain ⟨A2, B2, C2, D2⟩ := shrinkLoop_inv (even_HA canShrink) (even_HS canShrink)
      (l.length + 1) o1.1 o1.2 A1 B1
    rw [← ho2] at A2 B2 C2 D2
    have hflt : (o1.1.filter canShrink).length < l.length + 1 := by
      have h1 : (o1.1.filter canShrink).length ≤ o1.1.length :=
        List.length_filter_le _ _
      have h2 : o1.1.length = base.length := length_of_params D1
      omega
    have hexit := shrinkLoop_exit (even_HA canShrink) (even_HS canShrink)
      canShrink_clamped (l.length + 1) o1.1 o1.2 A1 B1 hflt
    rw [← ho2] at hexit
    have hmass : sizeSum o2.1 - o2.2 = T := by rw [C2, C1]; ring
    have hmin2 : minSum o2.1 = minSum l := minSum_of_params (by rw [D2, D1, hbp])
    have hmax2 : maxSum o2.1 = maxSum l := maxSum_of_params (by rw [D2, D1, hbp])
    rcases hexit with hz | hallmin
    · have hS : sizeSum o2.1 = T := by rw [hz] at hmass; linarith
      have h1 : minSum l ≤ T := by
        rw [← hmin2, ← hS]; exact minSum_le_sizeSum A2
      have h2 : (↑T : WithTop ℚ) ≤ maxSum l := by
        rw [← hmax2, ← hS]; exact coe_sizeSum_le_maxSum A2
      rw [hS, min_eq_left h2, max_eq_right (WithTop.coe_le_coe.mpr h1)]
    · have hSmin : sizeSum o2.1 = minSum l := by
        rw [← hmin2]; exact all_at_min A2 hallmin
      have hTle : T ≤ minSum l := by rw [← hSmin]; linarith
      have hminmax : (↑(minSum l) : WithTop ℚ) ≤ maxSum l :=
        coe_minSum_le_maxSum hwf
      have hTmax : (↑T : WithTop ℚ) ≤ maxSum l :=
        le_trans (WithTop.coe_le_coe.mpr hTle) hminmax
      rw [min_eq_left hTmax, max_eq_left (WithTop.coe_le_coe.mpr hTle), hSmin]

theorem growLoop_params (P : BoxSizer → Bool)
    (mkAmt : ℚ → List BoxSizer → BoxSizer → ℚ) (fuel : ℕ)
    (l : List BoxSizer) (r : ℚ) :
    (growLoop P mkAmt fuel l r).1.map BoxSizer.params = l.map BoxSizer.params := by
  induction fuel generalizing l r with
  | zero => rfl
  | succ fuel ih =>
    by_cases h1 : r ≤ 0
    · rw [growLoop_succ_le h1]
    · by_cases h2 : l.filter P = []
      · rw [growLoop_succ_empty h1 h2]
      · rw [growLoop_succ_step h1 h2, ih, growPass_params]

theorem shrinkLoop_params (P : BoxSizer → Bool)
    (mkAmt : ℚ → List BoxSizer → BoxSizer → ℚ) (fuel : ℕ)
    (l : List BoxSizer) (r : ℚ) :
    (shrinkLoop P mkAmt fuel l r).1.map BoxSizer.params = l.map BoxSizer.params := by
  induction fuel generalizing l r with
  | zero => rfl
  | succ fuel ih =>
    by_cases h1 : r ≤ 0
    · rw [shrinkLoop_succ_le h1]
    · by_cases h2 : l.filter P = []
      · rw [shrinkLoop_succ_empty h1 h2]
      · rw [shrinkLoop_succ_step h1 h2, ih, shrinkPass_params]

theorem boxCalc_params (l : List BoxSizer) (T : ℚ) :
    (boxCalc l T).map BoxSizer.params = l.map BoxSizer.params := by
  rcases lt_trichotomy (sizeSum (l.map applyBaseline)) T with hlt | heq | hgt
  · rw [boxCalc_grow_eq l T hlt, growLoop_params, growLoop_params,
      baseline_params]
  · rw [boxCalc_base_eq l T heq, baseline_params]
  · rw [boxCalc_shrink_eq l T hgt, shrinkLoop_params, shrinkLoop_params,
      baseline_params]

theorem boxCalc_length (l : List BoxSizer) (T : ℚ) :
    (boxCalc l T).length = l.length :=
  length_of_params (boxCalc_params l T)

/-- Conversion of sizer parameters into a freshly baselined sizer. -/
def ofParams (p : SizerParams) : BoxSizer :=
  { sizeHint := p.sizeHint
    minSize := p.minSize
    maxSize := p.maxSize
    stretch := p.stretch
    size := clampQ p.sizeHint p.minSize p.maxSize }

theorem map_applyBaseline_factor (l : List BoxSizer) :
    l.map applyBaseline = (l.map BoxSizer.params).map ofParams := by
  rw [List.map_map]; rfl

theorem boxCalc_of_params {l₁ l₂ : List BoxSizer} (T : ℚ)
    (h : l₁.map BoxSizer.params = l₂.map BoxSizer.params) :
    boxCalc l₁ T = boxCalc l₂ T := by
  have hbase : l₁.map applyBaseline = l₂.map applyBaseline := by
    rw [map_applyBaseline_factor, map_applyBaseline_factor, h]
  have hlen : l₁.length = l₂.length := length_of_params h
  simp only [boxCalc, hbase, hlen]

/-- Model of the `zeros` helper: an array of `n` zeros. -/
def zeros (n : ℕ) : List ℚ :=
  List.replicate n 0

/-- The start-offset computation of `_layoutChildren`: starting at the
content origin, each track's start is the previous start plus the
previous track's size plus the fixed spacing. -/
def computeStarts (origin spacing : ℚ) : List ℚ → List ℚ
  | [] => []
  | sz :: rest => origin :: computeStarts (origin + sz + spacing) spacing rest

theorem computeStarts_length (origin spacing : ℚ) (l : List ℚ) :
    (computeStarts origin spacing l).length = l.length := by
  induction l generalizing origin with
  | nil => rfl
  | cons sz rest ih => simp [computeStarts, ih]

theorem computeStarts_getD (l : List ℚ) :
    ∀ (origin spacing : ℚ) (i : ℕ), i < l.length →
      (computeStarts origin spacing l).getD i 0 =
        origin + (∑ j in Finset.range i, l.getD j 0) + spacing * i := by
  induction l with
  | nil => intro o sp i h; simp at h
  | cons a l ih =>
    intro o sp i h
    cases i with
    | zero => simp [computeStarts]
    | succ i =>
      have h' : i < l.length := by simpa using h
      simp only [computeStarts, List.getD_cons_succ]
      rw [ih _ _ i h', Finset.sum_range_succ']
      simp only [List.getD_cons_succ, List.getD_cons_zero]
      push_cast
      ring

theorem computeStarts_span (l : List ℚ) (o sp : ℚ) (a b : ℕ)
    (hab : a ≤ b) (hb : b < l.length) :
    (computeStarts o sp l).getD b 0 + l.getD b 0 - (computeStarts o sp l).getD a 0 =
      (∑ i in Finset.Icc a b, l.getD i 0) + sp * ((b : ℚ) - (a : ℚ)) := by
  rw [computeStarts_getD l o sp b hb,
    computeStarts_getD l o sp a (lt_of_le_of_lt hab hb)]
  have hsplit : (∑ j in Finset.range a, l.getD j 0) +
      (∑ i in Finset.Icc a b, l.getD i 0) =
      ∑ j in Finset.range (b + 1), l.getD j 0 := by
    rw [← Nat.Ico_succ_right, Finset.range_eq_Ico]
    exact Finset.sum_Ico_consecutive _ (Nat.zero_le a) (Nat.le_succ_of_le hab)
  rw [Finset.sum_range_succ] at hsplit
  have : (∑ i in Finset.Icc a b, l.getD i 0) =
      (∑ j in Finset.range b, l.getD j 0) + l.getD b 0 -
        ∑ j in Finset.range a, l.getD j 0 := by linarith
  rw [this]
  ring

/-- Intrinsic size limits of a child widget (`widget.sizeLimits`). -/
structure SizeLimits where
  minWidth : ℚ := 0
  minHeight : ℚ := 0
  maxWidth : WithTop ℚ := ⊤
  maxHeight : WithTop ℚ := ⊤
deriving DecidableEq, Repr

/-- The stored attached grid-cell properties of a widget
(`rowProperty`, `columnProperty`, `rowSpanProperty`,
`columnSpanProperty`), with their documented defaults `(0, 0, 1, 1)`. -/
structure CellAssignment where
  row : ℤ := 0
  column : ℤ := 0
  rowSpan : ℤ := 1
  columnSpan : ℤ := 1
deriving DecidableEq, Repr

/-- The coercion of `rowProperty` and `columnProperty`:
`Math.max(0, value | 0)`. -/
def coerceIndex (v : ℚ) : ℤ :=
  max 0 (toInt32 v)

/-- The coercion of `rowSpanProperty` and `columnSpanProperty`:
`Math.max(1, value | 0)`. -/
def coerceSpan (v : ℚ) : ℤ :=
  max 1 (toInt32 v)

/-- The `GridPanel.setRow` delegate: store the coerced origin row. -/
def CellAssignment.setRow (a : CellAssignment) (v : ℚ) : CellAssignment :=
  { a with row := coerceIndex v }

/-- The `GridPanel.setColumn` delegate. -/
def CellAssignment.setColumn (a : CellAssignment) (v : ℚ) : CellAssignment :=
  { a with column := coerceIndex v }

/-- The `GridPanel.setRowSpan` delegate. -/
def CellAssignment.setRowSpan (a : CellAssignment) (v : ℚ) : CellAssignment :=
  { a with rowSpan := coerceSpan v }

/-- The `GridPanel.setColumnSpan` delegate. -/
def CellAssignment.setColumnSpan (a : CellAssignment) (v : ℚ) : CellAssignment :=
  { a with columnSpan := coerceSpan v }

/-- A child widget as seen by the layout pass: its stored cell
assignment and its intrinsic size limits. -/
structure Child where
  cell : CellAssignment := {}
  limits : SizeLimits := {}
deriving DecidableEq, Repr

/-- Box-sizing measurements of the container (`this.boxSizing`). -/
structure BoxInsets where
  paddingTop : ℚ := 0
  paddingLeft : ℚ := 0
  horizontalSum : ℚ := 0
  verticalSum : ℚ := 0
deriving DecidableEq, Repr

/-- An offset-geometry rectangle handed to `setOffsetGeometry`. -/
structure Rect where
  x : ℚ
  y : ℚ
  w : ℚ
  h : ℚ
deriving DecidableEq, Repr

/-- The externally configured inputs of a grid panel: the spec arrays,
the two spacings (default `8`), the box insets and the child list. -/
structure PanelConfig where
  rowSpecs : List Spec := []
  colSpecs : List Spec := []
  rowSpacing : ℚ := 8
  colSpacing : ℚ := 8
  box : BoxInsets := {}
  children : List Child := []
deriving DecidableEq, Repr

/-- Setter for the row spacing (`rowSpacingProperty` with coercion
`Math.max(0, value | 0)`). -/
def PanelConfig.setRowSpacing (cfg : PanelConfig) (v : ℚ) : PanelConfig :=
  { cfg with rowSpacing := ((max 0 (toInt32 v) : ℤ) : ℚ) }

/-- Setter for the column spacing (`columnSpacingProperty` with
coercion `Math.max(0, value | 0)`). -/
def PanelConfig.setColumnSpacing (cfg : PanelConfig) (v : ℚ) : PanelConfig :=
  { cfg with colSpacing := ((max 0 (toInt32 v) : ℤ) : ℚ) }

/-- The mutable internal arrays of a grid panel (`_rowStarts`,
`_colStarts`, `_rowSizers`, `_colSizers`). -/
structure PanelState where
  rowStarts : List ℚ := []
  colStarts : List ℚ := []
  rowSizers : List BoxSizer := []
  colSizers : List BoxSizer := []
deriving DecidableEq, Repr

/-- The size limits published by `_setupGeometry` through
`setSizeLimits`. -/
structure PanelLimits where
  minW : ℚ
  minH : ℚ
  maxW : WithTop ℚ
  maxH : WithTop ℚ
deriving DecidableEq, Repr

/-- The `_setupGeometry` pass: compute the aggregate size constraints
from the spec lists, rebuild the start arrays and the box sizers, and
add the box insets to the published constraints. -/
def setupGeometry (cfg : PanelConfig) : PanelState × PanelLimits :=
  let rfixed : ℚ := cfg.rowSpacing * ((cfg.rowSpecs.length : ℚ) - 1)
  let minH0 : ℚ :=
    if cfg.rowSpecs.isEmpty then 0
    else (cfg.rowSpecs.map Spec.minSize).sum + rfixed
  let maxH0 : WithTop ℚ :=
    if cfg.rowSpecs.isEmpty then ⊤
    else (cfg.rowSpecs.map Spec.maxSize).sum + (rfixed : WithTop ℚ)
  let cfixed : ℚ := cfg.colSpacing * ((cfg.colSpecs.length : ℚ) - 1)
  let minW0 : ℚ :=
    if cfg.colSpecs.isEmpty then 0
    else (cfg.colSpecs.map Spec.minSize).sum + cfixed
  let maxW0 : WithTop ℚ :=
    if cfg.colSpecs.isEmpty then ⊤
    else (cfg.colSpecs.map Spec.maxSize).sum + (cfixed : WithTop ℚ)
  (⟨zeros cfg.rowSpecs.length, zeros cfg.colSpecs.length,
    cfg.rowSpecs.map makeSizer, cfg.colSpecs.map makeSizer⟩,
   ⟨minW0 + cfg.box.horizontalSum, minH0 + cfg.box.verticalSum,
    maxW0 + (cfg.box.horizontalSum : WithTop ℚ),
    maxH0 + (cfg.box.verticalSum : WithTop ℚ)⟩)

/-- The layout-time clamp of a stored origin track index:
`Math.max(0, Math.min(idx, maxIdx))`. -/
def clampIndex (idx maxIdx : ℤ) : ℤ :=
  max 0 (min idx maxIdx)

/-- The layout-time spanning end track:
`Math.min(startIdx + span - 1, maxIdx)`. -/
def endIndex (startIdx span maxIdx : ℤ) : ℤ :=
  min (startIdx + span - 1) maxIdx

/-- The per-child rectangle of the grid path of `_layoutChildren`:
clamp the origin cell into the track range, compute the spanning end
tracks, take extents from the start arrays and the solved sizes, and
clamp the result into the child's own size limits. -/
def gridRect (rowStarts rowSizes colStarts colSizes : List ℚ) (c : Child) : Rect :=
  let maxRow : ℤ := (rowSizes.length : ℤ) - 1
  let r1 := clampIndex c.cell.row maxRow
  let r2 := endIndex r1 c.cell.rowSpan maxRow
  let y := rowStarts.getD r1.toNat 0
  let h := rowStarts.getD r2.toNat 0 + rowSizes.getD r2.toNat 0 - y
  let maxCol : ℤ := (colSizes.length : ℤ) - 1
  let c1 := clampIndex c.cell.column maxCol
  let c2 := endIndex c1 c.cell.columnSpan maxCol
  let x := colStarts.getD c1.toNat 0
  let w := colStarts.getD c2.toNat 0 + colSizes.getD c2.toNat 0 - x
  ⟨x, y, clampQ w c.limits.minWidth c.limits.maxWidth,
   clampQ h c.limits.minHeight c.limits.maxHeight⟩

/-- The per-child rectangle of the stacking path of `_layoutChildren`
(no row or column sizers): the full content area clamped into the
child's own size limits. -/
def stackRect (left top width height : ℚ) (c : Child) : Rect :=
  ⟨left, top, clampQ width c.limits.minWidth c.limits.maxWidth,
   clampQ height c.limits.minHeight c.limits.maxHeight⟩

/-- The `_layoutChildren` pass: bail out with no children, stack the
children when either axis has no sizers, and otherwise run the
distribution on both axes, rebuild the start arrays, and assign each
child its grid rectangle. -/
def layoutChildren (cfg : PanelConfig) (st : PanelState)
    (offsetWidth offsetHeight : ℚ) : PanelState × List Rect :=
  if cfg.children.isEmpty then (st, [])
  else
    let top := cfg.box.paddingTop
    let left := cfg.box.paddingLeft
    let width := offsetWidth - cfg.box.horizontalSum
    let height := offsetHeight - cfg.box.verticalSum
    if st.rowSizers.isEmpty || st.colSizers.isEmpty then
      (st, cfg.children.map (stackRect left top width height))
    else
      let rowSizers := boxCalc st.rowSizers
        (height - cfg.rowSpacing * ((st.rowSizers.length : ℚ) - 1))
      let rowStarts := computeStarts top cfg.rowSpacing
        (rowSizers.map BoxSizer.size)
      let colSizers := boxCalc st.colSizers
        (width - cfg.colSpacing * ((st.colSizers.length : ℚ) - 1))
      let colStarts := computeStarts left cfg.colSpacing
        (colSizers.map BoxSizer.size)
      (⟨rowStarts, colStarts, rowSizers, colSizers⟩,
       cfg.children.map (gridRect rowStarts (rowSizers.map BoxSizer.size)
         colStarts (colSizers.map BoxSizer.size)))

theorem layoutChildren_empty_eq (cfg : PanelConfig) (st : PanelState)
    (ow oh : ℚ) (hc : cfg.children.isEmpty = true) :
    layoutChildren cfg st ow oh = (st, []) := by
  simp [layoutChildren, hc]

theorem layoutChildren_stack_eq (cfg : PanelConfig) (st : PanelState)
    (ow oh : ℚ) (hc : cfg.children.isEmpty = false)
    (hb : (st.rowSizers.isEmpty || st.colSizers.isEmpty) = true) :
    layoutChildren cfg st ow oh =
      (st, cfg.children.map (stackRect cfg.box.paddingLeft cfg.box.paddingTop
        (ow - cfg.box.horizontalSum) (oh - cfg.box.verticalSum))) := by
  simp [layoutChildren, hc, hb]

theorem layoutChildren_grid_eq (cfg : PanelConfig) (st : PanelState)
    (ow oh : ℚ) (hc : cfg.children.isEmpty = false)
    (hb : (st.rowSizers.isEmpty || st.colSizers.isEmpty) = false) :
    layoutChildren cfg st ow oh =
      (⟨computeStarts cfg.box.paddingTop cfg.rowSpacing
          ((boxCalc st.rowSizers ((oh - cfg.box.verticalSum) -
            cfg.rowSpacing * ((st.rowSizers.length : ℚ) - 1))).map BoxSizer.size),
        computeStarts cfg.box.paddingLeft cfg.colSpacing
          ((boxCalc st.colSizers ((ow - cfg.box.horizontalSum) -
            cfg.colSpacing * ((st.colSizers.length : ℚ) - 1))).map BoxSizer.size),
        boxCalc st.rowSizers ((oh - cfg.box.verticalSum) -
          cfg.rowSpacing * ((st.rowSizers.length : ℚ) - 1)),
        boxCalc st.colSizers ((ow - cfg.box.horizontalSum) -
          cfg.colSpacing * ((st.colSizers.length : ℚ) - 1))⟩,
       cfg.children.map (gridRect
         (computeStarts cfg.box.paddingTop cfg.rowSpacing
           ((boxCalc st.rowSizers ((oh - cfg.box.verticalSum) -
             cfg.rowSpacing * ((st.rowSizers.length : ℚ) - 1))).map BoxSizer.size))
         ((boxCalc st.rowSizers ((oh - cfg.box.verticalSum) -
           cfg.rowSpacing * ((st.rowSizers.length : ℚ) - 1))).map BoxSizer.size)
         (computeStarts cfg.box.paddingLeft cfg.colSpacing
           ((boxCalc st.colSizers ((ow - cfg.box.horizontalSum) -
             cfg.colSpacing * ((st.colSizers.length : ℚ) - 1))).map BoxSizer.size))
         ((boxCalc st.colSizers ((ow - cfg.box.horizontalSum) -
           cfg.colSpacing * ((st.colSizers.length : ℚ) - 1))).map BoxSizer.size))) := by
  simp [layoutChildren, hc, hb]

theorem toInt32_eq_truncQ {v : ℚ} (h1 : -2147483648 ≤ truncQ v)
    (h2 : truncQ v < 2147483648) : toInt32 v = truncQ v := by
  simp only [toInt32]
  split_ifs with h
  · omega
  · omega

theorem truncQ_natCast (n : ℕ) : truncQ (n : ℚ) = n := by
  rw [truncQ, if_pos (by positivity)]
  exact_mod_cast Int.floor_natCast n

theorem truncQ_intCast (n : ℤ) : truncQ (n : ℚ) = n := by
  rw [truncQ]
  split_ifs with h
  · exact_mod_cast Int.floor_intCast n
  · exact_mod_cast Int.ceil_intCast n

theorem toInt32_natCast (n : ℕ) (h : (n : ℤ) < 2147483648) :
    toInt32 (n : ℚ) = n := by
  have ht := truncQ_natCast n
  exact ht ▸ toInt32_eq_truncQ (ht ▸ by omega) (ht ▸ h)

theorem getD_map_of_lt {α β : Type*} (f : α → β) (l : List α) (k : ℕ)
    (hk : k < l.length) (d : α) (d' : β) :
    (l.map f).getD k d' = f (l.getD k d) := by
  induction l generalizing k with
  | nil => simp at hk
  | cons a l ih =>
    cases k with
    | zero => rfl
    | succ k => simpa using ih k (by simpa using hk)

/-- C5: for every `Spec`, the box sizer constructed by `makeSizer`
satisfies `maxSize ≥ minSize`; when the spec's `maxSize` is below its
`minSize` the sizer's `maxSize` is raised to the `minSize`, while the
sizer's `minSize` always equals the spec's `minSize` (it is never
lowered); `makeSizer` is a total function, so the resolution happens
at sizer-construction time and never by throwing. -/
theorem C5_makeSizer_inversion_resolution (sp : Spec) :
    (↑(makeSizer sp).minSize : WithTop ℚ) ≤ (makeSizer sp).maxSize ∧
      (makeSizer sp).minSize = sp.minSize ∧
      (sp.maxSize < (↑sp.minSize : WithTop ℚ) →
        (makeSizer sp).maxSize = ↑sp.minSize) :=
  ⟨makeSizer_wf sp, rfl, fun h => max_eq_left (le_of_lt h)⟩

theorem C5_makeSizer_inversion_resolution_witness :
    ((Spec.mk 0 10 ((5 : ℚ) : WithTop ℚ) 1).maxSize <
        (↑(Spec.mk 0 10 ((5 : ℚ) : WithTop ℚ) 1).minSize : WithTop ℚ)) ∧
      (makeSizer (Spec.mk 0 10 ((5 : ℚ) : WithTop ℚ) 1)).maxSize =
        ↑(Spec.mk 0 10 ((5 : ℚ) : WithTop ℚ) 1).minSize :=
  ⟨by decide,
   (C5_makeSizer_inversion_resolution (Spec.mk 0 10 ((5 : ℚ) : WithTop ℚ) 1)).2.2
     (by decide)⟩

/-- C6 counterexample: the stretch setter stores
`Math.max(0, value | 0)`, and `value | 0` wraps at `2^31`, so at
`v = 2147483648` the stored stretch is `0`, not
`max(0, truncate(v)) = 2147483648` as the claim states. -/
theorem C6_stretch_truncate_counterexample :
    ((Spec.mk 0 0 ⊤ 1).setStretch 2147483648).stretch ≠
      max 0 (truncQ 2147483648) := by
  have h1 : truncQ (2147483648 : ℚ) = 2147483648 := by norm_num [truncQ]
  simp only [Spec.setStretch, toInt32, h1]
  decide

/-- C6 (amended): `set minSize` stores `max(0, v)`, `set maxSize`
stores `max(0, v)`, and `set stretch` stores `max(0, toInt32 v)` —
which agrees with `max(0, truncate(v))` whenever the truncation fits
in the signed 32-bit range; no setter reads or writes any other field
(no cross-field validation) and every setter is a total function
(never throws). -/
theorem C6_spec_setters (sp : Spec) (v : ℚ) (w : WithTop ℚ) :
    (sp.setMinSize v).minSize = max 0 v ∧
      (sp.setMaxSize w).maxSize = max 0 w ∧
      (sp.setStretch v).stretch = max 0 (toInt32 v) ∧
      (-2147483648 ≤ truncQ v → truncQ v < 2147483648 →
        (sp.setStretch v).stretch = max 0 (truncQ v)) ∧
      (sp.setMinSize v).maxSize = sp.maxSize ∧
      (sp.setMinSize v).stretch = sp.stretch ∧
      (sp.setMinSize v).sizeBasis = sp.sizeBasis ∧
      (sp.setMaxSize w).minSize = sp.minSize ∧
      (sp.setMaxSize w).stretch = sp.stretch ∧
      (sp.setMaxSize w).sizeBasis = sp.sizeBasis ∧
      (sp.setStretch v).minSize = sp.minSize ∧
      (sp.setStretch v).maxSize = sp.maxSize ∧
      (sp.setStretch v).sizeBasis = sp.sizeBasis :=
  ⟨rfl, rfl, rfl,
   fun h1 h2 => by rw [Spec.setStretch, toInt32_eq_truncQ h1 h2],
   rfl, rfl, rfl, rfl, rfl, rfl, rfl, rfl, rfl⟩

theorem C6_spec_setters_witness :
    ((Spec.mk 1 2 ((7 : ℚ) : WithTop ℚ) 3).setMinSize (-4)).minSize = max 0 (-4) ∧
      ((Spec.mk 1 2 ((7 : ℚ) : WithTop ℚ) 3).setStretch (5 / 2)).stretch =
        max 0 (truncQ (5 / 2)) :=
  ⟨(C6_spec_setters (Spec.mk 1 2 ((7 : ℚ) : WithTop ℚ) 3) (-4) ⊤).1,
   (C6_spec_setters (Spec.mk 1 2 ((7 : ℚ) : WithTop ℚ) 3) (5 / 2) ⊤).2.2.2.1
     (by norm_num [truncQ]) (by norm_num [truncQ])⟩

/-- C10 counterexample: the spacing setters store
`Math.max(0, value | 0)`, and `value | 0` wraps at `2^31`, so at
`v = 2147483648` the stored row spacing is `0`, not
`max(0, truncate(v)) = 2147483648` as the claim states. -/
theorem C10_spacing_truncate_counterexample :
    (PanelConfig.setRowSpacing {} 2147483648).rowSpacing ≠
      ((max 0 (truncQ 2147483648) : ℤ) : ℚ) := by
  have h1 : truncQ (2147483648 : ℚ) = 2147483648 := by norm_num [truncQ]
  simp only [PanelConfig.setRowSpacing, toInt32, h1]
  decide

/-- C10 (amended): setting `rowSpacing` or `columnSpacing` stores
`max(0, toInt32 v)` — which agrees with `max(0, truncate(v))` (negative
values clamp to `0`, fractional values truncate toward zero) whenever
the truncation fits in the signed 32-bit range — and both spacings
default to `8`. -/
theorem C10_spacing_setters (cfg : PanelConfig) (v : ℚ) :
    (cfg.setRowSpacing v).rowSpacing = ((max 0 (toInt32 v) : ℤ) : ℚ) ∧
      (cfg.setColumnSpacing v).colSpacing = ((max 0 (toInt32 v) : ℤ) : ℚ) ∧
      (-2147483648 ≤ truncQ v → truncQ v < 2147483648 →
        (cfg.setRowSpacing v).rowSpacing = ((max 0 (truncQ v) : ℤ) : ℚ) ∧
          (cfg.setColumnSpacing v).colSpacing = ((max 0 (truncQ v) : ℤ) : ℚ)) ∧
      ({} : PanelConfig).rowSpacing = 8 ∧ ({} : PanelConfig).colSpacing = 8 :=
  ⟨rfl, rfl,
   fun h1 h2 => by
     rw [PanelConfig.setRowSpacing, PanelConfig.setColumnSpacing,
       toInt32_eq_truncQ h1 h2]
     exact ⟨rfl, rfl⟩,
   rfl, rfl⟩

theorem C10_spacing_setters_witness :
    (PanelConfig.setRowSpacing {} (-3)).rowSpacing =
        ((max 0 (truncQ (-3)) : ℤ) : ℚ) ∧
      (PanelConfig.setColumnSpacing {} (7 / 2)).colSpacing =
        ((max 0 (truncQ (7 / 2)) : ℤ) : ℚ) :=
  ⟨((C10_spacing_setters {} (-3)).2.2.1
      (by rw [show ((-3 : ℚ)) = ((-3 : ℤ) : ℚ) by norm_num, truncQ_intCast]; norm_num)
      (by rw [show ((-3 : ℚ)) = ((-3 : ℤ) : ℚ) by norm_num, truncQ_intCast]; norm_num)).1,
   ((C10_spacing_setters {} (7 / 2)).2.2.1 (by norm_num [truncQ])
      (by norm_num [truncQ])).2⟩

/-- C8: setting a widget's cell assignment is a total function for
every numeric input (it never fails): the assignment-time coercions
enforce only the lower bounds — `0` for `row`/`column` and `1` for the
spans — and store any in-range integer index verbatim, with no upper
check against the track count; an index at or beyond the track count
is clamped to the last valid track only by the layout-time clamp
`clampIndex`. -/
theorem C8_assignment_never_fails (a : CellAssignment) (v : ℚ) :
    (a.setRow v).row = max 0 (toInt32 v) ∧ 0 ≤ (a.setRow v).row ∧
      (a.setColumn v).column = max 0 (toInt32 v) ∧ 0 ≤ (a.setColumn v).column ∧
      (a.setRowSpan v).rowSpan = max 1 (toInt32 v) ∧ 1 ≤ (a.setRowSpan v).rowSpan ∧
      (a.setColumnSpan v).columnSpan = max 1 (toInt32 v) ∧
      1 ≤ (a.setColumnSpan v).columnSpan ∧
      (∀ n : ℕ, (n : ℤ) < 2147483648 → coerceIndex (n : ℚ) = (n : ℤ)) ∧
      (∀ idx maxIdx : ℤ, 0 ≤ maxIdx → maxIdx ≤ idx →
        clampIndex idx maxIdx = maxIdx) :=
  ⟨rfl, le_max_left _ _, rfl, le_max_left _ _, rfl, le_max_left _ _, rfl,
   le_max_left _ _,
   fun n h => by rw [coerceIndex, toInt32_natCast n h]; omega,
   fun idx maxIdx h0 hle => by rw [clampIndex]; omega⟩

theorem C8_assignment_never_fails_witness :
    (CellAssignment.setRow {} (-5)).row = max 0 (toInt32 (-5)) ∧
      coerceIndex ((9 : ℕ) : ℚ) = ((9 : ℕ) : ℤ) ∧
      clampIndex 9 2 = 2 :=
  ⟨(C8_assignment_never_fails {} (-5)).1,
   (C8_assignment_never_fails {} 0).2.2.2.2.2.2.2.2.1 9 (by decide),
   (C8_assignment_never_fails {} 0).2.2.2.2.2.2.2.2.2 9 2 (by decide) (by decide)⟩

/-- C7: on a geometry-setup pass with `K > 0` row specs, the published
minimum height is the sum of the specs' `minSize` plus
`rowSpacing * (K - 1)` plus the vertical box insets, and the published
maximum height is the sum of the specs' `maxSize` plus the same fixed
terms; symmetrically for the columns and the width; with zero specs on
an axis the published minimum is the insets alone and the maximum is
unbounded. -/
theorem C7_setupGeometry_limits (cfg : PanelConfig) :
    (cfg.rowSpecs ≠ [] →
      (setupGeometry cfg).2.minH = (cfg.rowSpecs.map Spec.minSize).sum +
          cfg.rowSpacing * ((cfg.rowSpecs.length : ℚ) - 1) + cfg.box.verticalSum ∧
        (setupGeometry cfg).2.maxH = (cfg.rowSpecs.map Spec.maxSize).sum +
          ↑(cfg.rowSpacing * ((cfg.rowSpecs.length : ℚ) - 1)) +
          ↑cfg.box.verticalSum) ∧
      (cfg.rowSpecs = [] →
        (setupGeometry cfg).2.minH = cfg.box.verticalSum ∧
          (setupGeometry cfg).2.maxH = ⊤) ∧
      (cfg.colSpecs ≠ [] →
        (setupGeometry cfg).2.minW = (cfg.colSpecs.map Spec.minSize).sum +
            cfg.colSpacing * ((cfg.colSpecs.length : ℚ) - 1) +
            cfg.box.horizontalSum ∧
          (setupGeometry cfg).2.maxW = (cfg.colSpecs.map Spec.maxSize).sum +
            ↑(cfg.colSpacing * ((cfg.colSpecs.length : ℚ) - 1)) +
            ↑cfg.box.horizontalSum) ∧
      (cfg.colSpecs = [] →
        (setupGeometry cfg).2.minW = cfg.box.horizontalSum ∧
          (setupGeometry cfg).2.maxW = ⊤) := by
  refine ⟨fun h => ?_, fun h => ?_, fun h => ?_, fun h => ?_⟩
  · have hne : cfg.rowSpecs.isEmpty = false := by
      simpa [List.isEmpty_iff] using h
    constructor
    · simp [setupGeometry, hne]
    · simp [setupGeometry, hne]
  · have hne : cfg.rowSpecs.isEmpty = true := by simp [List.isEmpty_iff, h]
    constructor
    · simp [setupGeometry, hne]
    · simp [setupGeometry, hne, top_add]
  · have hne : cfg.colSpecs.isEmpty = false := by
      simpa [List.isEmpty_iff] using h
    constructor
    · simp [setupGeometry, hne]
    · simp [setupGeometry, hne]
  · have hne : cfg.colSpecs.isEmpty = true := by simp [List.isEmpty_iff, h]
    constructor
    · simp [setupGeometry, hne]
    · simp [setupGeometry, hne, top_add]

theorem C7_setupGeometry_limits_witness :
    (setupGeometry (PanelConfig.mk [Spec.mk 0 3 ((9 : ℚ) : WithTop ℚ) 1, Spec.mk 0 4 ⊤ 1]
        [] 8 8 (BoxInsets.mk 1 2 5 6) [])).2.minH = (3 + 4) + 8 * (2 - 1) + 6 ∧
      (setupGeometry (PanelConfig.mk [Spec.mk 0 3 ((9 : ℚ) : WithTop ℚ) 1, Spec.mk 0 4 ⊤ 1]
        [] 8 8 (BoxInsets.mk 1 2 5 6) [])).2.minW = 5 ∧
      (setupGeometry (PanelConfig.mk [Spec.mk 0 3 ((9 : ℚ) : WithTop ℚ) 1, Spec.mk 0 4 ⊤ 1]
        [] 8 8 (BoxInsets.mk 1 2 5 6) [])).2.maxW = ⊤ := by
  have h := C7_setupGeometry_limits (PanelConfig.mk
    [Spec.mk 0 3 ((9 : ℚ) : WithTop ℚ) 1, Spec.mk 0 4 ⊤ 1]
    [] 8 8 (BoxInsets.mk 1 2 5 6) [])
  refine ⟨?_, ?_, ?_⟩
  · rw [(h.1 (by decide)).1]; norm_num
  · exact (h.2.2.2 rfl).1
  · exact (h.2.2.2 rfl).2

theorem isEmpty_false_of_ne_nil {α : Type*} {l : List α} (h : l ≠ []) :
    l.isEmpty = false := by
  cases l with
  | nil => exact absurd rfl h
  | cons a l => rfl

theorem computeStarts_head (o sp : ℚ) (l : List ℚ) (h : l ≠ []) :
    (computeStarts o sp l).getD 0 0 = o := by
  cases l with
  | nil => exact absurd rfl h
  | cons a l => rfl

theorem computeStarts_step (o sp : ℚ) (l : List ℚ) (i : ℕ) (h : i + 1 < l.length) :
    (computeStarts o sp l).getD (i + 1) 0 =
      (computeStarts o sp l).getD i 0 + l.getD i 0 + sp := by
  rw [computeStarts_getD l o sp (i + 1) h, computeStarts_getD l o sp i (by omega),
    Finset.sum_range_succ]
  push_cast
  ring

/-- C4 counterexample: with zero row specs and zero column specs, two
stacked children whose own size limits differ receive different
rectangles (each child clamps the full content area into its own
limits), so the children do not all receive identical rectangles. -/
theorem C4_identical_rectangles_counterexample :
    (layoutChildren
        (PanelConfig.mk [] [] 8 8 (BoxInsets.mk 0 0 0 0)
          [Child.mk (CellAssignment.mk 0 0 1 1) (SizeLimits.mk 0 0 ⊤ ⊤),
           Child.mk (CellAssignment.mk 0 0 1 1)
             (SizeLimits.mk 0 0 ((10 : ℚ) : WithTop ℚ) ⊤)])
        (setupGeometry (PanelConfig.mk [] [] 8 8 (BoxInsets.mk 0 0 0 0)
          [Child.mk (CellAssignment.mk 0 0 1 1) (SizeLimits.mk 0 0 ⊤ ⊤),
           Child.mk (CellAssignment.mk 0 0 1 1)
             (SizeLimits.mk 0 0 ((10 : ℚ) : WithTop ℚ) ⊤)])).1
        100 100).2.getD 0 (Rect.mk 0 0 0 0) ≠
      (layoutChildren
        (PanelConfig.mk [] [] 8 8 (BoxInsets.mk 0 0 0 0)
          [Child.mk (CellAssignment.mk 0 0 1 1) (SizeLimits.mk 0 0 ⊤ ⊤),
           Child.mk (CellAssignment.mk 0 0 1 1)
             (SizeLimits.mk 0 0 ((10 : ℚ) : WithTop ℚ) ⊤)])
        (setupGeometry (PanelConfig.mk [] [] 8 8 (BoxInsets.mk 0 0 0 0)
          [Child.mk (CellAssignment.mk 0 0 1 1) (SizeLimits.mk 0 0 ⊤ ⊤),
           Child.mk (CellAssignment.mk 0 0 1 1)
             (SizeLimits.mk 0 0 ((10 : ℚ) : WithTop ℚ) ⊤)])).1
        100 100).2.getD 1 (Rect.mk 0 0 0 0) := by
  rw [layoutChildren_stack_eq _ _ _ _ (by rfl) (by rfl)]
  simp only [List.map_cons, List.map_nil, List.getD, List.getElem?_cons_zero,
    List.getElem?_cons_succ, Option.getD_some, stackRect, clampQ, jsMinQ_top,
    jsMinQ_coe, ne_eq, Rect.mk.injEq]
  norm_num

/-- C4 (amended): if an axis has zero track specs, every child widget
is stacked at the container content origin with width and height equal
to the full content extent clamped into the widget's own min/max
limits (no track-driven offset), and the internal state is untouched;
with zero row specs and zero column specs, any two children with equal
size limits receive identical rectangles equal to that per-widget
clamped full content area. -/
theorem C4_stacked_layout (cfg : PanelConfig) (ow oh : ℚ)
    (h : cfg.rowSpecs = [] ∨ cfg.colSpecs = []) :
    (layoutChildren cfg (setupGeometry cfg).1 ow oh).2 =
        cfg.children.map (stackRect cfg.box.paddingLeft cfg.box.paddingTop
          (ow - cfg.box.horizontalSum) (oh - cfg.box.verticalSum)) ∧
      (layoutChildren cfg (setupGeometry cfg).1 ow oh).1 = (setupGeometry cfg).1 ∧
      (∀ i j : ℕ, i < cfg.children.length → j < cfg.children.length →
        (cfg.children.getD i {}).limits = (cfg.children.getD j {}).limits →
        (layoutChildren cfg (setupGeometry cfg).1 ow oh).2.getD i (Rect.mk 0 0 0 0) =
          (layoutChildren cfg (setupGeometry cfg).1 ow oh).2.getD j (Rect.mk 0 0 0 0)) := by
  have hb : ((setupGeometry cfg).1.rowSizers.isEmpty ||
      (setupGeometry cfg).1.colSizers.isEmpty) = true := by
    rcases h with h | h
    · have h1 : (setupGeometry cfg).1.rowSizers = [] := by
        show cfg.rowSpecs.map makeSizer = []
        rw [h]; rfl
      rw [h1]; rfl
    · have h1 : (setupGeometry cfg).1.colSizers = [] := by
        show cfg.colSpecs.map makeSizer = []
        rw [h]; rfl
      rw [h1]
      simp
  by_cases hc : cfg.children.isEmpty = true
  · have hnil : cfg.children = [] := by
      cases hl : cfg.children with
      | nil => rfl
      | cons a l => rw [hl] at hc; exact absurd hc (by simp)
    rw [layoutChildren_empty_eq _ _ _ _ hc]
    refine ⟨by rw [hnil]; rfl, rfl, ?_⟩
    intro i j _ _ _
    rfl
  · have hc' : cfg.children.isEmpty = false := by
      cases hcc : cfg.children.isEmpty
      · rfl
      · exact absurd hcc hc
    rw [layoutChildren_stack_eq _ _ _ _ hc' hb]
    refine ⟨rfl, rfl, ?_⟩
    intro i j hi hj hlim
    rw [getD_map_of_lt _ _ i hi ({} : Child),
      getD_map_of_lt _ _ j hj ({} : Child)]
    simp only [stackRect, hlim]

theorem C4_stacked_layout_witness :
    (layoutChildren
        (PanelConfig.mk [] [Spec.mk 0 0 ⊤ 1] 8 8 (BoxInsets.mk 2 3 4 5)
          [Child.mk (CellAssignment.mk 0 0 1 1) (SizeLimits.mk 0 0 ⊤ ⊤)])
        (setupGeometry (PanelConfig.mk [] [Spec.mk 0 0 ⊤ 1] 8 8 (BoxInsets.mk 2 3 4 5)
          [Child.mk (CellAssignment.mk 0 0 1 1) (SizeLimits.mk 0 0 ⊤ ⊤)])).1
        50 40).2 =
      (PanelConfig.mk [] [Spec.mk 0 0 ⊤ 1] 8 8 (BoxInsets.mk 2 3 4 5)
          [Child.mk (CellAssignment.mk 0 0 1 1) (SizeLimits.mk 0 0 ⊤ ⊤)]).children.map
        (stackRect 3 2 (50 - 4) (40 - 5)) :=
  (C4_stacked_layout
    (PanelConfig.mk [] [Spec.mk 0 0 ⊤ 1] 8 8 (BoxInsets.mk 2 3 4 5)
      [Child.mk (CellAssignment.mk 0 0 1 1) (SizeLimits.mk 0 0 ⊤ ⊤)])
    50 40 (Or.inl rfl)).1

/-- C3 counterexample: a layout pass that bails out early (here: no
children) leaves the start arrays as built by `_setupGeometry` (all
zeros), so with a nonzero padding the first start offset does not
equal the content origin — the recurrence does not hold on every
layout pass. -/
theorem C3_start_origin_counterexample :
    (layoutChildren
        (PanelConfig.mk [Spec.mk 0 0 ⊤ 1] [Spec.mk 0 0 ⊤ 1] 8 8
          (BoxInsets.mk 5 0 0 0) [])
        (setupGeometry (PanelConfig.mk [Spec.mk 0 0 ⊤ 1] [Spec.mk 0 0 ⊤ 1] 8 8
          (BoxInsets.mk 5 0 0 0) [])).1
        100 100).1.rowStarts.getD 0 0 ≠
      (PanelConfig.mk [Spec.mk 0 0 ⊤ 1] [Spec.mk 0 0 ⊤ 1] 8 8
        (BoxInsets.mk 5 0 0 0) []).box.paddingTop := by
  decide

/-- C3 (amended): on every layout pass that reaches the grid
computation (at least one child and nonzero row and column sizers),
the per-axis start arrays satisfy the running-sum recurrence:
`start[0]` is the content origin (the padding offset) and
`start[i+1] = start[i] + size[i] + spacing`. -/
theorem C3_starts_recurrence (cfg : PanelConfig) (st : PanelState) (ow oh : ℚ)
    (hc : cfg.children ≠ []) (hr : st.rowSizers ≠ []) (hcl : st.colSizers ≠ []) :
    (layoutChildren cfg st ow oh).1.rowStarts.getD 0 0 = cfg.box.paddingTop ∧
      (∀ i : ℕ, i + 1 < (layoutChildren cfg st ow oh).1.rowStarts.length →
        (layoutChildren cfg st ow oh).1.rowStarts.getD (i + 1) 0 =
          (layoutChildren cfg st ow oh).1.rowStarts.getD i 0 +
            ((layoutChildren cfg st ow oh).1.rowSizers.map BoxSizer.size).getD i 0 +
            cfg.rowSpacing) ∧
      (layoutChildren cfg st ow oh).1.colStarts.getD 0 0 = cfg.box.paddingLeft ∧
      (∀ i : ℕ, i + 1 < (layoutChildren cfg st ow oh).1.colStarts.length →
        (layoutChildren cfg st ow oh).1.colStarts.getD (i + 1) 0 =
          (layoutChildren cfg st ow oh).1.colStarts.getD i 0 +
            ((layoutChildren cfg st ow oh).1.colSizers.map BoxSizer.size).getD i 0 +
            cfg.colSpacing) := by
  have hc' : cfg.children.isEmpty = false := isEmpty_false_of_ne_nil hc
  have hb : (st.rowSizers.isEmpty || st.colSizers.isEmpty) = false := by
    rw [isEmpty_false_of_ne_nil hr, isEmpty_false_of_ne_nil hcl]; rfl
  rw [layoutChildren_grid_eq cfg st ow oh hc' hb]
  dsimp only
  have hner : (boxCalc st.rowSizers ((oh - cfg.box.verticalSum) -
      cfg.rowSpacing * ((st.rowSizers.length : ℚ) - 1))).map BoxSizer.size ≠ [] := by
    intro hnil
    have hlen := congrArg List.length hnil
    rw [List.length_map, boxCalc_length] at hlen
    exact hr (List.length_eq_zero.mp hlen)
  have hnec : (boxCalc st.colSizers ((ow - cfg.box.horizontalSum) -
      cfg.colSpacing * ((st.colSizers.length : ℚ) - 1))).map BoxSizer.size ≠ [] := by
    intro hnil
    have hlen := congrArg List.length hnil
    rw [List.length_map, boxCalc_length] at hlen
    exact hcl (List.length_eq_zero.mp hlen)
  refine ⟨computeStarts_head _ _ _ hner, ?_, computeStarts_head _ _ _ hnec, ?_⟩
  · intro i hi
    rw [computeStarts_length] at hi
    exact computeStarts_step _ _ _ i hi
  · intro i hi
    rw [computeStarts_length] at hi
    exact computeStarts_step _ _ _ i hi

theorem C3_starts_recurrence_witness :
    (layoutChildren
        (PanelConfig.mk [Spec.mk 0 10 ((10 : ℚ) : WithTop ℚ) 1, Spec.mk 0 20 ((20 : ℚ) : WithTop ℚ) 1]
          [Spec.mk 0 0 ⊤ 1] 8 8 (BoxInsets.mk 5 7 0 0)
          [Child.mk (CellAssignment.mk 0 0 1 1) (SizeLimits.mk 0 0 ⊤ ⊤)])
        (setupGeometry (PanelConfig.mk
          [Spec.mk 0 10 ((10 : ℚ) : WithTop ℚ) 1, Spec.mk 0 20 ((20 : ℚ) : WithTop ℚ) 1]
          [Spec.mk 0 0 ⊤ 1] 8 8 (BoxInsets.mk 5 7 0 0)
          [Child.mk (CellAssignment.mk 0 0 1 1) (SizeLimits.mk 0 0 ⊤ ⊤)])).1
        100 100).1.rowStarts.getD 0 0 =
      (PanelConfig.mk [Spec.mk 0 10 ((10 : ℚ) : WithTop ℚ) 1, Spec.mk 0 20 ((20 : ℚ) : WithTop ℚ) 1]
        [Spec.mk 0 0 ⊤ 1] 8 8 (BoxInsets.mk 5 7 0 0)
        [Child.mk (CellAssignment.mk 0 0 1 1) (SizeLimits.mk 0 0 ⊤ ⊤)]).box.paddingTop :=
  (C3_starts_recurrence
    (PanelConfig.mk [Spec.mk 0 10 ((10 : ℚ) : WithTop ℚ) 1, Spec.mk 0 20 ((20 : ℚ) : WithTop ℚ) 1]
      [Spec.mk 0 0 ⊤ 1] 8 8 (BoxInsets.mk 5 7 0 0)
      [Child.mk (CellAssignment.mk 0 0 1 1) (SizeLimits.mk 0 0 ⊤ ⊤)])
    (setupGeometry (PanelConfig.mk
      [Spec.mk 0 10 ((10 : ℚ) : WithTop ℚ) 1, Spec.mk 0 20 ((20 : ℚ) : WithTop ℚ) 1]
      [Spec.mk 0 0 ⊤ 1] 8 8 (BoxInsets.mk 5 7 0 0)
      [Child.mk (CellAssignment.mk 0 0 1 1) (SizeLimits.mk 0 0 ⊤ ⊤)])).1
    100 100 (by decide) (by decide) (by decide)).1

/-- C1: on a layout pass that runs the distribution (at least one
child, nonzero sizers on both axes, with the sizers built by the
geometry-setup pass from the spec lists), the solved sizes on each
axis sum to `clamp(T, Σ minSize, Σ maxSize)`, where `T` is the content
extent on that axis minus `spacing * (K - 1)`; in particular, when
`Σ minSize ≤ T ≤ Σ maxSize` on an axis, the sizes sum to `T`
exactly. -/
theorem C1_distribution_conservation (cfg : PanelConfig) (ow oh : ℚ)
    (hrow : cfg.rowSpecs ≠ []) (hcol : cfg.colSpecs ≠ []) (hch : cfg.children ≠ []) :
    ((↑(sizeSum (layoutChildren cfg (setupGeometry cfg).1 ow oh).1.rowSizers) : WithTop ℚ) =
        max (↑(minSum (layoutChildren cfg (setupGeometry cfg).1 ow oh).1.rowSizers))
          (min (↑((oh - cfg.box.verticalSum) -
              cfg.rowSpacing * ((cfg.rowSpecs.length : ℚ) - 1)))
            (maxSum (layoutChildren cfg (setupGeometry cfg).1 ow oh).1.rowSizers))) ∧
      ((↑(sizeSum (layoutChildren cfg (setupGeometry cfg).1 ow oh).1.colSizers) : WithTop ℚ) =
        max (↑(minSum (layoutChildren cfg (setupGeometry cfg).1 ow oh).1.colSizers))
          (min (↑((ow - cfg.box.horizontalSum) -
              cfg.colSpacing * ((cfg.colSpecs.length : ℚ) - 1)))
            (maxSum (layoutChildren cfg (setupGeometry cfg).1 ow oh).1.colSizers))) ∧
      (minSum (layoutChildren cfg (setupGeometry cfg).1 ow oh).1.rowSizers ≤
          (oh - cfg.box.verticalSum) - cfg.rowSpacing * ((cfg.rowSpecs.length : ℚ) - 1) →
        (↑((oh - cfg.box.verticalSum) - cfg.rowSpacing * ((cfg.rowSpecs.length : ℚ) - 1)) : WithTop ℚ) ≤
          maxSum (layoutChildren cfg (setupGeometry cfg).1 ow oh).1.rowSizers →
        sizeSum (layoutChildren cfg (setupGeometry cfg).1 ow oh).1.rowSizers =
          (oh - cfg.box.verticalSum) - cfg.rowSpacing * ((cfg.rowSpecs.length : ℚ) - 1)) ∧
      (minSum (layoutChildren cfg (setupGeometry cfg).1 ow oh).1.colSizers ≤
          (ow - cfg.box.horizontalSum) - cfg.colSpacing * ((cfg.colSpecs.length : ℚ) - 1) →
        (↑((ow - cfg.box.horizontalSum) - cfg.colSpacing * ((cfg.colSpecs.length : ℚ) - 1)) : WithTop ℚ) ≤
          maxSum (layoutChildren cfg (setupGeometry cfg).1 ow oh).1.colSizers →
        sizeSum (layoutChildren cfg (setupGeometry cfg).1 ow oh).1.colSizers =
          (ow - cfg.box.horizontalSum) - cfg.colSpacing * ((cfg.colSpecs.length : ℚ) - 1)) := by
  have hc' : cfg.children.isEmpty = false := isEmpty_false_of_ne_nil hch
  have hmapr : (setupGeometry cfg).1.rowSizers = cfg.rowSpecs.map makeSizer := rfl
  have hmapc : (setupGeometry cfg).1.colSizers = cfg.colSpecs.map makeSizer := rfl
  have hbr : (setupGeometry cfg).1.rowSizers ≠ [] := by
    rw [hmapr]; intro hnil; exact hrow (List.map_eq_nil_iff.mp hnil)
  have hbc : (setupGeometry cfg).1.colSizers ≠ [] := by
    rw [hmapc]; intro hnil; exact hcol (List.map_eq_nil_iff.mp hnil)
  have hb : ((setupGeometry cfg).1.rowSizers.isEmpty ||
      (setupGeometry cfg).1.colSizers.isEmpty) = false := by
    rw [isEmpty_false_of_ne_nil hbr, isEmpty_false_of_ne_nil hbc]; rfl
  rw [layoutChildren_grid_eq cfg (setupGeometry cfg).1 ow oh hc' hb]
  dsimp only
  have hlenr : ((setupGeometry cfg).1.rowSizers.length : ℚ) = (cfg.rowSpecs.length : ℚ) := by
    rw [hmapr, List.length_map]
  have hlenc : ((setupGeometry cfg).1.colSizers.length : ℚ) = (cfg.colSpecs.length : ℚ) := by
    rw [hmapc, List.length_map]
  rw [hlenr, hlenc]
  have hwfr : ∀ s ∈ (setupGeometry cfg).1.rowSizers,
      (↑s.minSize : WithTop ℚ) ≤ s.maxSize := by
    rw [hmapr]; intro s hs
    obtain ⟨sp, _, rfl⟩ := List.mem_map.mp hs
    exact makeSizer_wf sp
  have hwfc : ∀ s ∈ (setupGeometry cfg).1.colSizers,
      (↑s.minSize : WithTop ℚ) ≤ s.maxSize := by
    rw [hmapc]; intro s hs
    obtain ⟨sp, _, rfl⟩ := List.mem_map.mp hs
    exact makeSizer_wf sp
  have hr1 := boxCalc_conservation ((setupGeometry cfg).1.rowSizers)
    ((oh - cfg.box.verticalSum) - cfg.rowSpacing * ((cfg.rowSpecs.length : ℚ) - 1)) hwfr
  have hc1 := boxCalc_conservation ((setupGeometry cfg).1.colSizers)
    ((ow - cfg.box.horizontalSum) - cfg.colSpacing * ((cfg.colSpecs.length : ℚ) - 1)) hwfc
  refine ⟨?_, ?_, ?_, ?_⟩
  · rw [minSum_of_params (boxCalc_params _ _), maxSum_of_params (boxCalc_params _ _)]
    exact hr1
  · rw [minSum_of_params (boxCalc_params _ _), maxSum_of_params (boxCalc_params _ _)]
    exact hc1
  · intro h1 h2
    rw [minSum_of_params (boxCalc_params _ _)] at h1
    rw [maxSum_of_params (boxCalc_params _ _)] at h2
    rw [min_eq_left h2, max_eq_right (le_trans (WithTop.coe_le_coe.mpr h1)
      (le_refl _))] at hr1
    exact WithTop.coe_inj.mp hr1
  · intro h1 h2
    rw [minSum_of_params (boxCalc_params _ _)] at h1
    rw [maxSum_of_params (boxCalc_params _ _)] at h2
    rw [min_eq_left h2, max_eq_right (le_trans (WithTop.coe_le_coe.mpr h1)
      (le_refl _))] at hc1
    exact WithTop.coe_inj.mp hc1

theorem C1_distribution_conservation_witness :
    (↑(sizeSum (layoutChildren
        (PanelConfig.mk [Spec.mk 0 0 ⊤ 1] [Spec.mk 0 0 ⊤ 1] 8 8 (BoxInsets.mk 0 0 0 0)
          [Child.mk (CellAssignment.mk 0 0 1 1) (SizeLimits.mk 0 0 ⊤ ⊤)])
        (setupGeometry (PanelConfig.mk [Spec.mk 0 0 ⊤ 1] [Spec.mk 0 0 ⊤ 1] 8 8
          (BoxInsets.mk 0 0 0 0)
          [Child.mk (CellAssignment.mk 0 0 1 1) (SizeLimits.mk 0 0 ⊤ ⊤)])).1
        100 100).1.rowSizers) : WithTop ℚ) =
      max (↑(minSum (layoutChildren
        (PanelConfig.mk [Spec.mk 0 0 ⊤ 1] [Spec.mk 0 0 ⊤ 1] 8 8 (BoxInsets.mk 0 0 0 0)
          [Child.mk (CellAssignment.mk 0 0 1 1) (SizeLimits.mk 0 0 ⊤ ⊤)])
        (setupGeometry (PanelConfig.mk [Spec.mk 0 0 ⊤ 1] [Spec.mk 0 0 ⊤ 1] 8 8
          (BoxInsets.mk 0 0 0 0)
          [Child.mk (CellAssignment.mk 0 0 1 1) (SizeLimits.mk 0 0 ⊤ ⊤)])).1
        100 100).1.rowSizers))
        (min (↑((100 - (PanelConfig.mk [Spec.mk 0 0 ⊤ 1] [Spec.mk 0 0 ⊤ 1] 8 8
              (BoxInsets.mk 0 0 0 0)
              [Child.mk (CellAssignment.mk 0 0 1 1) (SizeLimits.mk 0 0 ⊤ ⊤)]).box.verticalSum) -
            (PanelConfig.mk [Spec.mk 0 0 ⊤ 1] [Spec.mk 0 0 ⊤ 1] 8 8 (BoxInsets.mk 0 0 0 0)
              [Child.mk (CellAssignment.mk 0 0 1 1) (SizeLimits.mk 0 0 ⊤ ⊤)]).rowSpacing *
              (((PanelConfig.mk [Spec.mk 0 0 ⊤ 1] [Spec.mk 0 0 ⊤ 1] 8 8 (BoxInsets.mk 0 0 0 0)
                [Child.mk (CellAssignment.mk 0 0 1 1) (SizeLimits.mk 0 0 ⊤ ⊤)]).rowSpecs.length : ℚ) - 1)))
          (maxSum (layoutChildren
            (PanelConfig.mk [Spec.mk 0 0 ⊤ 1] [Spec.mk 0 0 ⊤ 1] 8 8 (BoxInsets.mk 0 0 0 0)
              [Child.mk (CellAssignment.mk 0 0 1 1) (SizeLimits.mk 0 0 ⊤ ⊤)])
            (setupGeometry (PanelConfig.mk [Spec.mk 0 0 ⊤ 1] [Spec.mk 0 0 ⊤ 1] 8 8
              (BoxInsets.mk 0 0 0 0)
              [Child.mk (CellAssignment.mk 0 0 1 1) (SizeLimits.mk 0 0 ⊤ ⊤)])).1
            100 100).1.rowSizers)) :=
  (C1_distribution_conservation
    (PanelConfig.mk [Spec.mk 0 0 ⊤ 1] [Spec.mk 0 0 ⊤ 1] 8 8 (BoxInsets.mk 0 0 0 0)
      [Child.mk (CellAssignment.mk 0 0 1 1) (SizeLimits.mk 0 0 ⊤ ⊤)])
    100 100 (by decide) (by decide) (by decide)).1

/-- The clamped start track of an element on one axis, against the
axis's solved size list. -/
def startTrack (idx : ℤ) (szs : List ℚ) : ℤ :=
  clampIndex idx ((szs.length : ℤ) - 1)

/-- The spanning end track of an element on one axis. -/
def endTrack (a span : ℤ) (szs : List ℚ) : ℤ :=
  endIndex a span ((szs.length : ℤ) - 1)

theorem axis_span_absorption (o sp : ℚ) (szs : List ℚ) (idx span : ℤ)
    (hne : szs ≠ []) (hspan : 1 ≤ span) :
    (computeStarts o sp szs).getD (endTrack (startTrack idx szs) span szs).toNat 0 +
        szs.getD (endTrack (startTrack idx szs) span szs).toNat 0 -
        (computeStarts o sp szs).getD (startTrack idx szs).toNat 0 =
      (∑ i in Finset.Icc (startTrack idx szs).toNat
          (endTrack (startTrack idx szs) span szs).toNat, szs.getD i 0) +
        sp * (((endTrack (startTrack idx szs) span szs).toNat : ℚ) -
          ((startTrack idx szs).toNat : ℚ)) := by
  have hlen : 0 < szs.length := List.length_pos.mpr hne
  have hfacts : 0 ≤ startTrack idx szs ∧
      startTrack idx szs ≤ endTrack (startTrack idx szs) span szs ∧
      endTrack (startTrack idx szs) span szs ≤ (szs.length : ℤ) - 1 := by
    simp only [startTrack, endTrack, clampIndex, endIndex]
    omega
  obtain ⟨h0, hab, hbm⟩ := hfacts
  have ha' : (startTrack idx szs).toNat ≤ (endTrack (startTrack idx szs) span szs).toNat := by
    omega
  have hb' : (endTrack (startTrack idx szs) span szs).toNat < szs.length := by
    omega
  exact computeStarts_span szs o sp _ _ ha' hb'

/-- C2: for a child widget laid out with nonzero row and column
sizers, its rectangle is exactly `gridRect` of the solved state: the
start track is `clampIndex` of the assigned index into
`[0, trackCount - 1]`, the end track is
`min(start + span - 1, trackCount - 1)`, the extent on each axis is
`start[b] + size[b] - start[a]` — which absorbs the inter-track
spacing between `a` and `b` and none beyond `b`, equalling the sum of
the spanned sizes plus `spacing * (b - a)` — and the resulting width
and height are clamped into the widget's own min/max size limits by
`clampQ`. -/
theorem C2_child_rectangle (cfg : PanelConfig) (st : PanelState) (ow oh : ℚ) (k : ℕ)
    (hr : st.rowSizers ≠ []) (hcl : st.colSizers ≠ [])
    (hk : k < cfg.children.length)
    (hrs : 1 ≤ (cfg.children.getD k {}).cell.rowSpan)
    (hcs : 1 ≤ (cfg.children.getD k {}).cell.columnSpan) :
    (layoutChildren cfg st ow oh).2.getD k (Rect.mk 0 0 0 0) =
        gridRect (layoutChildren cfg st ow oh).1.rowStarts
          ((layoutChildren cfg st ow oh).1.rowSizers.map BoxSizer.size)
          (layoutChildren cfg st ow oh).1.colStarts
          ((layoutChildren cfg st ow oh).1.colSizers.map BoxSizer.size)
          (cfg.children.getD k {}) ∧
      ((layoutChildren cfg st ow oh).2.getD k (Rect.mk 0 0 0 0)).h =
        clampQ
          ((layoutChildren cfg st ow oh).1.rowStarts.getD
              (endTrack (startTrack (cfg.children.getD k {}).cell.row
                  ((layoutChildren cfg st ow oh).1.rowSizers.map BoxSizer.size))
                (cfg.children.getD k {}).cell.rowSpan
                ((layoutChildren cfg st ow oh).1.rowSizers.map BoxSizer.size)).toNat 0 +
            ((layoutChildren cfg st ow oh).1.rowSizers.map BoxSizer.size).getD
              (endTrack (startTrack (cfg.children.getD k {}).cell.row
                  ((layoutChildren cfg st ow oh).1.rowSizers.map BoxSizer.size))
                (cfg.children.getD k {}).cell.rowSpan
                ((layoutChildren cfg st ow oh).1.rowSizers.map BoxSizer.size)).toNat 0 -
            (layoutChildren cfg st ow oh).1.rowStarts.getD
              (startTrack (cfg.children.getD k {}).cell.row
                ((layoutChildren cfg st ow oh).1.rowSizers.map BoxSizer.size)).toNat 0)
          (cfg.children.getD k {}).limits.minHeight
          (cfg.children.getD k {}).limits.maxHeight ∧
      ((layoutChildren cfg st ow oh).2.getD k (Rect.mk 0 0 0 0)).w =
        clampQ
          ((layoutChildren cfg st ow oh).1.colStarts.getD
              (endTrack (startTrack (cfg.children.getD k {}).cell.column
                  ((layoutChildren cfg st ow oh).1.colSizers.map BoxSizer.size))
                (cfg.children.getD k {}).cell.columnSpan
                ((layoutChildren cfg st ow oh).1.colSizers.map BoxSizer.size)).toNat 0 +
            ((layoutChildren cfg st ow oh).1.colSizers.map BoxSizer.size).getD
              (endTrack (startTrack (cfg.children.getD k {}).cell.column
                  ((layoutChildren cfg st ow oh).1.colSizers.map BoxSizer.size))
                (cfg.children.getD k {}).cell.columnSpan
                ((layoutChildren cfg st ow oh).1.colSizers.map BoxSizer.size)).toNat 0 -
            (layoutChildren cfg st ow oh).1.colStarts.getD
              (startTrack (cfg.children.getD k {}).cell.column
                ((layoutChildren cfg st ow oh).1.colSizers.map BoxSizer.size)).toNat 0)
          (cfg.children.getD k {}).limits.minWidth
          (cfg.children.getD k {}).limits.maxWidth ∧
      (layoutChildren cfg st ow oh).1.rowStarts.getD
          (endTrack (startTrack (cfg.children.getD k {}).cell.row
              ((layoutChildren cfg st ow oh).1.rowSizers.map BoxSizer.size))
            (cfg.children.getD k {}).cell.rowSpan
            ((layoutChildren cfg st ow oh).1.rowSizers.map BoxSizer.size)).toNat 0 +
          ((layoutChildren cfg st ow oh).1.rowSizers.map BoxSizer.size).getD
            (endTrack (startTrack (cfg.children.getD k {}).cell.row
                ((layoutChildren cfg st ow oh).1.rowSizers.map BoxSizer.size))
              (cfg.children.getD k {}).cell.rowSpan
              ((layoutChildren cfg st ow oh).1.rowSizers.map BoxSizer.size)).toNat 0 -
          (layoutChildren cfg st ow oh).1.rowStarts.getD
            (startTrack (cfg.children.getD k {}).cell.row
              ((layoutChildren cfg st ow oh).1.rowSizers.map BoxSizer.size)).toNat 0 =
        (∑ i in Finset.Icc
            (startTrack (cfg.children.getD k {}).cell.row
              ((layoutChildren cfg st ow oh).1.rowSizers.map BoxSizer.size)).toNat
            (endTrack (startTrack (cfg.children.getD k {}).cell.row
                ((layoutChildren cfg st ow oh).1.rowSizers.map BoxSizer.size))
              (cfg.children.getD k {}).cell.rowSpan
              ((layoutChildren cfg st ow oh).1.rowSizers.map BoxSizer.size)).toNat,
          ((layoutChildren cfg st ow oh).1.rowSizers.map BoxSizer.size).getD i 0) +
          cfg.rowSpacing *
            (((endTrack (startTrack (cfg.children.getD k {}).cell.row
                  ((layoutChildren cfg st ow oh).1.rowSizers.map BoxSizer.size))
                (cfg.children.getD k {}).cell.rowSpan
                ((layoutChildren cfg st ow oh).1.rowSizers.map BoxSizer.size)).toNat : ℚ) -
              ((startTrack (cfg.children.getD k {}).cell.row
                ((layoutChildren cfg st ow oh).1.rowSizers.map BoxSizer.size)).toNat : ℚ)) ∧
      (layoutChildren cfg st ow oh).1.colStarts.getD
          (endTrack (startTrack (cfg.children.getD k {}).cell.column
              ((layoutChildren cfg st ow oh).1.colSizers.map BoxSizer.size))
            (cfg.children.getD k {}).cell.columnSpan
            ((layoutChildren cfg st ow oh).1.colSizers.map BoxSizer.size)).toNat 0 +
          ((layoutChildren cfg st ow oh).1.colSizers.map BoxSizer.size).getD
            (endTrack (startTrack (cfg.children.getD k {}).cell.column
                ((layoutChildren cfg st ow oh).1.colSizers.map BoxSizer.size))
              (cfg.children.getD k {}).cell.columnSpan
              ((layoutChildren cfg st ow oh).1.colSizers.map BoxSizer.size)).toNat 0 -
          (layoutChildren cfg st ow oh).1.colStarts.getD
            (startTrack (cfg.children.getD k {}).cell.column
              ((layoutChildren cfg st ow oh).1.colSizers.map BoxSizer.size)).toNat 0 =
        (∑ i in Finset.Icc
            (startTrack (cfg.children.getD k {}).cell.column
              ((layoutChildren cfg st ow oh).1.colSizers.map BoxSizer.size)).toNat
            (endTrack (startTrack (cfg.children.getD k {}).cell.column
                ((layoutChildren cfg st ow oh).1.colSizers.map BoxSizer.size))
              (cfg.children.getD k {}).cell.columnSpan
              ((layoutChildren cfg st ow oh).1.colSizers.map BoxSizer.size)).toNat,
          ((layoutChildren cfg st ow oh).1.colSizers.map BoxSizer.size).getD i 0) +
          cfg.colSpacing *
            (((endTrack (startTrack (cfg.children.getD k {}).cell.column
                  ((layoutChildren cfg st ow oh).1.colSizers.map BoxSizer.size))
                (cfg.children.getD k {}).cell.columnSpan
                ((layoutChildren cfg st ow oh).1.colSizers.map BoxSizer.size)).toNat : ℚ) -
              ((startTrack (cfg.children.getD k {}).cell.column
                ((layoutChildren cfg st ow oh).1.colSizers.map BoxSizer.size)).toNat : ℚ)) := by
  have hch : cfg.children ≠ [] := by
    intro hnil; rw [hnil] at hk; exact absurd hk (by simp)
  have hc' : cfg.children.isEmpty = false := isEmpty_false_of_ne_nil hch
  have hb : (st.rowSizers.isEmpty || st.colSizers.isEmpty) = false := by
    rw [isEmpty_false_of_ne_nil hr, isEmpty_false_of_ne_nil hcl]; rfl
  rw [layoutChildren_grid_eq cfg st ow oh hc' hb]
  dsimp only
  have hner : (boxCalc st.rowSizers ((oh - cfg.box.verticalSum) -
      cfg.rowSpacing * ((st.rowSizers.length : ℚ) - 1))).map BoxSizer.size ≠ [] := by
    intro hnil
    have hlen := congrArg List.length hnil
    rw [List.length_map, boxCalc_length] at hlen
    exact hr (List.length_eq_zero.mp hlen)
  have hnec : (boxCalc st.colSizers ((ow - cfg.box.horizontalSum) -
      cfg.colSpacing * ((st.colSizers.length : ℚ) - 1))).map BoxSizer.size ≠ [] := by
    intro hnil
    have hlen := congrArg List.length hnil
    rw [List.length_map, boxCalc_length] at hlen
    exact hcl (List.length_eq_zero.mp hlen)
  rw [getD_map_of_lt _ _ k hk ({} : Child)]
  refine ⟨rfl, rfl, rfl, ?_, ?_⟩
  · exact axis_span_absorption _ _ _ _ _ hner hrs
  · exact axis_span_absorption _ _ _ _ _ hnec hcs

theorem C2_child_rectangle_witness :
    (layoutChildren
        (PanelConfig.mk [Spec.mk 0 10 ((10 : ℚ) : WithTop ℚ) 1, Spec.mk 0 20 ((20 : ℚ) : WithTop ℚ) 1]
          [Spec.mk 0 30 ((30 : ℚ) : WithTop ℚ) 1] 8 8 (BoxInsets.mk 0 0 0 0)
          [Child.mk (CellAssignment.mk 0 0 2 1) (SizeLimits.mk 0 0 ⊤ ⊤)])
        (setupGeometry (PanelConfig.mk
          [Spec.mk 0 10 ((10 : ℚ) : WithTop ℚ) 1, Spec.mk 0 20 ((20 : ℚ) : WithTop ℚ) 1]
          [Spec.mk 0 30 ((30 : ℚ) : WithTop ℚ) 1] 8 8 (BoxInsets.mk 0 0 0 0)
          [Child.mk (CellAssignment.mk 0 0 2 1) (SizeLimits.mk 0 0 ⊤ ⊤)])).1
        100 100).2.getD 0 (Rect.mk 0 0 0 0) =
      gridRect
        (layoutChildren
          (PanelConfig.mk [Spec.mk 0 10 ((10 : ℚ) : WithTop ℚ) 1, Spec.mk 0 20 ((20 : ℚ) : WithTop ℚ) 1]
            [Spec.mk 0 30 ((30 : ℚ) : WithTop ℚ) 1] 8 8 (BoxInsets.mk 0 0 0 0)
            [Child.mk (CellAssignment.mk 0 0 2 1) (SizeLimits.mk 0 0 ⊤ ⊤)])
          (setupGeometry (PanelConfig.mk
            [Spec.mk 0 10 ((10 : ℚ) : WithTop ℚ) 1, Spec.mk 0 20 ((20 : ℚ) : WithTop ℚ) 1]
            [Spec.mk 0 30 ((30 : ℚ) : WithTop ℚ) 1] 8 8 (BoxInsets.mk 0 0 0 0)
            [Child.mk (CellAssignment.mk 0 0 2 1) (SizeLimits.mk 0 0 ⊤ ⊤)])).1
          100 100).1.rowStarts
        ((layoutChildren
          (PanelConfig.mk [Spec.mk 0 10 ((10 : ℚ) : WithTop ℚ) 1, Spec.mk 0 20 ((20 : ℚ) : WithTop ℚ) 1]
            [Spec.mk 0 30 ((30 : ℚ) : WithTop ℚ) 1] 8 8 (BoxInsets.mk 0 0 0 0)
            [Child.mk (CellAssignment.mk 0 0 2 1) (SizeLimits.mk 0 0 ⊤ ⊤)])
          (setupGeometry (PanelConfig.mk
            [Spec.mk 0 10 ((10 : ℚ) : WithTop ℚ) 1, Spec.mk 0 20 ((20 : ℚ) : WithTop ℚ) 1]
            [Spec.mk 0 30 ((30 : ℚ) : WithTop ℚ) 1] 8 8 (BoxInsets.mk 0 0 0 0)
            [Child.mk (CellAssignment.mk 0 0 2 1) (SizeLimits.mk 0 0 ⊤ ⊤)])).1
          100 100).1.rowSizers.map BoxSizer.size)
        (layoutChildren
          (PanelConfig.mk [Spec.mk 0 10 ((10 : ℚ) : WithTop ℚ) 1, Spec.mk 0 20 ((20 : ℚ) : WithTop ℚ) 1]
            [Spec.mk 0 30 ((30 : ℚ) : WithTop ℚ) 1] 8 8 (BoxInsets.mk 0 0 0 0)
            [Child.mk (CellAssignment.mk 0 0 2 1) (SizeLimits.mk 0 0 ⊤ ⊤)])
          (setupGeometry (PanelConfig.mk
            [Spec.mk 0 10 ((10 : ℚ) : WithTop ℚ) 1, Spec.mk 0 20 ((20 : ℚ) : WithTop ℚ) 1]
            [Spec.mk 0 30 ((30 : ℚ) : WithTop ℚ) 1] 8 8 (BoxInsets.mk 0 0 0 0)
            [Child.mk (CellAssignment.mk 0 0 2 1) (SizeLimits.mk 0 0 ⊤ ⊤)])).1
          100 100).1.colStarts
        ((layoutChildren
          (PanelConfig.mk [Spec.mk 0 10 ((10 : ℚ) : WithTop ℚ) 1, Spec.mk 0 20 ((20 : ℚ) : WithTop ℚ) 1]
            [Spec.mk 0 30 ((30 : ℚ) : WithTop ℚ) 1] 8 8 (BoxInsets.mk 0 0 0 0)
            [Child.mk (CellAssignment.mk 0 0 2 1) (SizeLimits.mk 0 0 ⊤ ⊤)])
          (setupGeometry (PanelConfig.mk
            [Spec.mk 0 10 ((10 : ℚ) : WithTop ℚ) 1, Spec.mk 0 20 ((20 : ℚ) : WithTop ℚ) 1]
            [Spec.mk 0 30 ((30 : ℚ) : WithTop ℚ) 1] 8 8 (BoxInsets.mk 0 0 0 0)
            [Child.mk (CellAssignment.mk 0 0 2 1) (SizeLimits.mk 0 0 ⊤ ⊤)])).1
          100 100).1.colSizers.map BoxSizer.size)
        ((PanelConfig.mk [Spec.mk 0 10 ((10 : ℚ) : WithTop ℚ) 1, Spec.mk 0 20 ((20 : ℚ) : WithTop ℚ) 1]
            [Spec.mk 0 30 ((30 : ℚ) : WithTop ℚ) 1] 8 8 (BoxInsets.mk 0 0 0 0)
            [Child.mk (CellAssignment.mk 0 0 2 1) (SizeLimits.mk 0 0 ⊤ ⊤)]).children.getD 0 {}) :=
  (C2_child_rectangle
    (PanelConfig.mk [Spec.mk 0 10 ((10 : ℚ) : WithTop ℚ) 1, Spec.mk 0 20 ((20 : ℚ) : WithTop ℚ) 1]
      [Spec.mk 0 30 ((30 : ℚ) : WithTop ℚ) 1] 8 8 (BoxInsets.mk 0 0 0 0)
      [Child.mk (CellAssignment.mk 0 0 2 1) (SizeLimits.mk 0 0 ⊤ ⊤)])
    (setupGeometry (PanelConfig.mk
      [Spec.mk 0 10 ((10 : ℚ) : WithTop ℚ) 1, Spec.mk 0 20 ((20 : ℚ) : WithTop ℚ) 1]
      [Spec.mk 0 30 ((30 : ℚ) : WithTop ℚ) 1] 8 8 (BoxInsets.mk 0 0 0 0)
      [Child.mk (CellAssignment.mk 0 0 2 1) (SizeLimits.mk 0 0 ⊤ ⊤)])).1
    100 100 0 (by decide) (by decide) (by decide) (by decide) (by decide)).1

theorem ne_nil_of_isEmpty_false {α : Type*} {l : List α} (h : l.isEmpty = false) :
    l ≠ [] := by
  cases l with
  | nil => simp at h
  | cons a l => simp

/-- Running the distribution on its own output with the same target is
a no-op: `boxCalc` reads only the constraint parameters, which it
preserves. -/
theorem boxCalc_idem (l : List BoxSizer) (T : ℚ) :
    boxCalc (boxCalc l T) T = boxCalc l T :=
  boxCalc_of_params T (boxCalc_params l T)

/-- C9: running the layout pass twice in a row with identical inputs
and no intervening mutation of the configuration or the state produces
the identical state and identical rectangles for every child — the
second run is a no-op. -/
theorem C9_layout_idempotent (cfg : PanelConfig) (st : PanelState) (ow oh : ℚ) :
    layoutChildren cfg (layoutChildren cfg st ow oh).1 ow oh =
      layoutChildren cfg st ow oh := by
  by_cases hc : cfg.children.isEmpty = true
  · rw [layoutChildren_empty_eq cfg st ow oh hc]
    exact layoutChildren_empty_eq cfg st ow oh hc
  · have hc' : cfg.children.isEmpty = false := by
      cases hcc : cfg.children.isEmpty
      · rfl
      · exact absurd hcc hc
    by_cases hb : (st.rowSizers.isEmpty || st.colSizers.isEmpty) = true
    · rw [layoutChildren_stack_eq cfg st ow oh hc' hb]
      exact layoutChildren_stack_eq cfg st ow oh hc' hb
    · have hb' : (st.rowSizers.isEmpty || st.colSizers.isEmpty) = false := by
        cases hbb : (st.rowSizers.isEmpty || st.colSizers.isEmpty)
        · rfl
        · exact absurd hbb hb
      have hre : st.rowSizers.isEmpty = false := by
        cases hx : st.rowSizers.isEmpty
        · rfl
        · rw [hx] at hb'; simp at hb'
      have hce : st.colSizers.isEmpty = false := by
        cases hx : st.colSizers.isEmpty
        · rfl
        · rw [hx] at hb'; simp at hb'
      rw [layoutChildren_grid_eq cfg st ow oh hc' hb']
      dsimp only
      set R := boxCalc st.rowSizers ((oh - cfg.box.verticalSum) -
        cfg.rowSpacing * ((st.rowSizers.length : ℚ) - 1)) with hR
      set C := boxCalc st.colSizers ((ow - cfg.box.horizontalSum) -
        cfg.colSpacing * ((st.colSizers.length : ℚ) - 1)) with hCC
      have hRne : R ≠ [] := by
        intro hnil
        have hlen := congrArg List.length hnil
        rw [hR, boxCalc_length] at hlen
        exact ne_nil_of_isEmpty_false hre (List.length_eq_zero.mp hlen)
      have hCne : C ≠ [] := by
        intro hnil
        have hlen := congrArg List.length hnil
        rw [hCC, boxCalc_length] at hlen
        exact ne_nil_of_isEmpty_false hce (List.length_eq_zero.mp hlen)
      have hb2 : (R.isEmpty || C.isEmpty) = false := by
        rw [isEmpty_false_of_ne_nil hRne, isEmpty_false_of_ne_nil hCne]; rfl
      rw [layoutChildren_grid_eq cfg
        ⟨computeStarts cfg.box.paddingTop cfg.rowSpacing (R.map BoxSizer.size),
          computeStarts cfg.box.paddingLeft cfg.colSpacing (C.map BoxSizer.size),
          R, C⟩ ow oh hc' hb2]
      dsimp only
      have hlenR : (R.length : ℚ) = (st.rowSizers.length : ℚ) := by
        rw [hR, boxCalc_length]
      have hlenC : (C.length : ℚ) = (st.colSizers.length : ℚ) := by
        rw [hCC, boxCalc_length]
      rw [hlenR, hlenC]
      have hRR : boxCalc R ((oh - cfg.box.verticalSum) -
          cfg.rowSpacing * ((st.rowSizers.length : ℚ) - 1)) = R := by
        rw [hR]; exact boxCalc_idem _ _
      have hCCeq : boxCalc C ((ow - cfg.box.horizontalSum) -
          cfg.colSpacing * ((st.colSizers.length : ℚ) - 1)) = C := by
        rw [hCC]; exact boxCalc_idem _ _
      rw [hRR, hCCeq]

end Phosphor
